import Mathlib

/-! # OpenROAD distributed detailed routing: merge engine, transport, synchronizer

A shallow embedding of

* `TritonRoute::applyUpdates`, `TritonRoute::updateDesign`,
  `serializeUpdatesBatch`, `deserializeUpdate`,
  `TritonRoute::setSharedVolume`, `TritonRoute::sendDesignDist`,
  `TritonRoute::sendDesignUpdates`, `TritonRoute::addWorkerResults`,
  `TritonRoute::getWorkerResults` (`src/drt/src/TritonRoute.cpp`),
* `sendMsg`, `readMsg`, `Distributed::sendJob`, `Distributed::sendResult`
  (`src/dst/src/Distributed.cc`),
* `LoadBalancer::worker`, `LoadBalancer::CompareWorker` and the priority queue
  `workers_` (`src/dst/src/LoadBalancer.h`),

together with the properties of these functions.

Conventions.

* A C++ `std::vector` is a `List`; an unchecked `v[i]` outside the vector is
  undefined behaviour in C++ and is an explicit `Fatal.undefined` here.
* `utl::Logger::error` logs and throws, so it ends the running call; it is the
  `Fatal.error` result.  The code relies on it: `addUserSelectedVia` reports a
  null `db_->getChip()` with `logger_->error` and dereferences it on the next
  line.  `utl::Logger::warn` only logs.
* Loop counters are `Nat`: the sizes involved are far below `2^31`.
* A `std::string` is a `String` whose characters are the bytes.
-/

namespace Drt

/-! ## Data model of the merge engine -/

/-- Point of the routing grid (`frPoint`). -/
structure frPoint where
  x : Int
  y : Int
  deriving DecidableEq, Repr, Inhabited

/-- Style of a path segment (`frSegStyle`): extensions, width and end styles. -/
structure frSegStyle where
  beginExt : Nat
  endExt : Nat
  width : Nat
  beginStyle : Nat
  endStyle : Nat
  deriving DecidableEq, Repr, Inhabited

/-- Path segment (`frPathSeg`): two end points, a layer and a style. -/
structure frPathSeg where
  beginPoint : frPoint
  endPoint : frPoint
  layer : Int
  style : frSegStyle
  deriving DecidableEq, Repr, Inhabited

/-- Patch wire (`frPatchWire`): an offset box placed at an origin on a layer. -/
structure frPatchWire where
  origin : frPoint
  lowerLeft : frPoint
  upperRight : frPoint
  layer : Int
  deriving DecidableEq, Repr, Inhabited

/-- Via (`frVia`): a via definition placed at an origin. -/
structure frVia where
  origin : frPoint
  viaDef : Nat
  deriving DecidableEq, Repr, Inhabited

/-- Violation marker (`frMarker`), owned by the top block. -/
structure frMarker where
  lowerLeft : frPoint
  upperRight : frPoint
  layer : Int
  deriving DecidableEq, Repr, Inhabited

/-- Object-type tags (`frBlockObjectEnum`) the merge engine meets. -/
inductive frBlockObjectEnum
  | frcPathSeg
  | frcPatchWire
  | frcVia
  | frcMarker
  | frcGuide
  | frcRect
  deriving DecidableEq, Repr, Inhabited

/-- Operation tags of a mutation (`drUpdate::UpdateType`). -/
inductive UpdateType
  | REMOVE_FROM_BLOCK
  | REMOVE_FROM_NET
  | REMOVE_FROM_RQ
  | ADD_SHAPE
  | ADD_SHAPE_NET_ONLY
  | ADD_GUIDE
  | UPDATE_SHAPE
  deriving DecidableEq, Repr, Inhabited

/-- Modelled from the spec: the mutation record `drUpdate` (its header
`distributed/drUpdate.h` is not among the sources).  It carries the operation
tag, the owning net (nullable), the index into the owner's child collection,
the object-type tag and the payload; the four payload getters used by
`applyUpdates` are the last four fields. -/
structure drUpdate where
  type : UpdateType
  net : Option Nat
  orderInOwner : Int
  objTypeId : frBlockObjectEnum
  pathSeg : frPathSeg
  patchWire : frPatchWire
  via : frVia
  marker : frMarker
  deriving DecidableEq, Repr, Inhabited

/-- Child object of a net (`frPinFig`), as returned by `frNet::getPinFig`. -/
inductive frPinFig
  | pathSeg (seg : frPathSeg)
  | patchWire (pwire : frPatchWire)
  | via (v : frVia)
  | rect (lowerLeft upperRight : frPoint)
  deriving DecidableEq, Repr, Inhabited

/-- Modelled from the spec: the `typeId()` of a net child (`frPinFig` is not
among the sources). -/
def frPinFig.typeId : frPinFig → frBlockObjectEnum
  | .pathSeg _ => .frcPathSeg
  | .patchWire _ => .frcPatchWire
  | .via _ => .frcVia
  | .rect _ _ => .frcRect

/-- Guide of a net (`frGuide`); only its routes matter to the merge engine. -/
structure frGuide where
  routes : List frPathSeg
  deriving DecidableEq, Repr, Inhabited

/-- Modelled from the spec: the net `frNet` (its header is not among the
sources).  `pinfigs` is the mutation-ordered child collection addressed by
`orderInOwner`; indices are stable, so a removed child leaves `none` in its
slot and an added child takes the next free slot. -/
structure frNet where
  pinfigs : List (Option frPinFig)
  guides : List frGuide
  deriving DecidableEq, Repr, Inhabited

/-- Modelled from the spec: the spatial index `frRegionQuery` (not among the
sources), as the set of objects it holds: net children by (net, index) and
markers by index.  Insertion is idempotent. -/
structure frRegionQuery where
  drObjs : List (Nat × Nat)
  markers : List Nat
  deriving DecidableEq, Repr, Inhabited

/-- Modelled from the spec: the design `frDesign` with its top block (headers
not among the sources): the nets, the block's markers by stable index, the
spatial index, the pending-mutation log keyed by worker and the version. -/
structure frDesign where
  nets : List frNet
  markers : List (Option frMarker)
  regionQuery : frRegionQuery
  updates : List (List drUpdate)
  version : Nat
  deriving DecidableEq, Repr, Inhabited

/-- How a call can end without returning: `error` is `utl::Logger::error`
(message id, format string, arguments), which throws; `undefined` is an
access that C++ leaves undefined (vector index out of range, null pointer). -/
inductive Fatal
  | error (id : Nat) (format : String) (args : List Int)
  | undefined (what : String)
  deriving DecidableEq, Repr, Inhabited

/-! ### Region query and owner operations -/

/-- Modelled from the spec: `frRegionQuery::addDRObj`, insertion of a net
child into the spatial index; inserting a child that is there changes
nothing. -/
def frRegionQuery.addDRObj (rq : frRegionQuery) (ref : Nat × Nat) : frRegionQuery :=
  if ref ∈ rq.drObjs then rq else { rq with drObjs := rq.drObjs ++ [ref] }

/-- Modelled from the spec: `frRegionQuery::removeDRObj`, removal of a net
child from the spatial index. -/
def frRegionQuery.removeDRObj (rq : frRegionQuery) (ref : Nat × Nat) : frRegionQuery :=
  { rq with drObjs := rq.drObjs.filter (fun r => r ≠ ref) }

/-- Modelled from the spec: `frRegionQuery::addMarker`, insertion of a marker
into the spatial index. -/
def frRegionQuery.addMarker (rq : frRegionQuery) (id : Nat) : frRegionQuery :=
  if id ∈ rq.markers then rq else { rq with markers := rq.markers ++ [id] }

/-- Modelled from the spec: `frRegionQuery::removeMarker`, removal of a marker
from the spatial index. -/
def frRegionQuery.removeMarker (rq : frRegionQuery) (id : Nat) : frRegionQuery :=
  { rq with markers := rq.markers.filter (fun r => r ≠ id) }

/-- Modelled from the spec: `frNet::getPinFig(id)`, the live child in slot
`id` of the net (`none`: no such child, the pointer is null or dangling). -/
def frNet.getPinFig (net : frNet) (id : Int) : Option frPinFig :=
  if id < 0 then none else (net.pinfigs.getD id.toNat none)

/-- Modelled from the spec: `frNet::addShape` / `addPatchWire` / `addVia`, the
child takes the next slot; the result is the net and the slot. -/
def frNet.addPinFig (net : frNet) (fig : frPinFig) : frNet × Nat :=
  ({ net with pinfigs := net.pinfigs ++ [some fig] }, net.pinfigs.length)

/-- Modelled from the spec: `frNet::removeShape` / `removePatchWire` /
`removeVia`, the slot is emptied and later slots keep their index. -/
def frNet.removePinFig (net : frNet) (id : Nat) : frNet :=
  { net with pinfigs := net.pinfigs.set id none }

/-- Dereference `update.getNet()`. -/
def frDesign.getNet (d : frDesign) (net : Option Nat) : Except Fatal (Nat × frNet) :=
  match net with
  | none => .error (.undefined "null net")
  | some n =>
    match d.nets[n]? with
    | none => .error (.undefined "dangling net")
    | some nt => .ok (n, nt)

/-- Store a net back in the design. -/
def frDesign.setNet (d : frDesign) (n : Nat) (net : frNet) : frDesign :=
  { d with nets := d.nets.set n net }

/-- Numeric value of an object-type tag, as printed in a log message. -/
def frBlockObjectEnum.code : frBlockObjectEnum → Int
  | .frcPathSeg => 0
  | .frcPatchWire => 1
  | .frcVia => 2
  | .frcMarker => 3
  | .frcGuide => 4
  | .frcRect => 5

/-- Modelled from the spec: `frBlock::getMarker(id)`, the live marker in slot
`id` of the top block. -/
def frDesign.getMarker (d : frDesign) (id : Int) : Option frMarker :=
  if id < 0 then none else (d.markers.getD id.toNat none)

/-! ## `TritonRoute::applyUpdates` -/

/-- Body of the two loops of `TritonRoute::applyUpdates`: the `switch` on
`update.getType()` applied to one mutation.  A call that ends with an
exception gives the exception and the design as it is at the throw. -/
def applyUpdate (d : frDesign) (update : drUpdate) : Except (Fatal × frDesign) frDesign :=
  match update.type with
  | .REMOVE_FROM_BLOCK =>
    let id := update.orderInOwner
    match d.getMarker id with
    | none => .error (.undefined "null marker", d)
    | some _ =>
      .ok { d with regionQuery := d.regionQuery.removeMarker id.toNat
                   markers := d.markers.set id.toNat none }
  | .REMOVE_FROM_NET | .REMOVE_FROM_RQ =>
    match d.getNet update.net with
    | .error e => .error (e, d)
    | .ok (n, net) =>
      let id := update.orderInOwner
      match net.getPinFig id with
      | none => .error (.undefined "null pin figure", d)
      | some pinfig =>
        match pinfig with
        | .pathSeg _ =>
          let d1 := { d with regionQuery := d.regionQuery.removeDRObj (n, id.toNat) }
          if update.type = .REMOVE_FROM_NET then
            .ok (d1.setNet n (net.removePinFig id.toNat))
          else .ok d1
        | .patchWire _ =>
          let d1 := { d with regionQuery := d.regionQuery.removeDRObj (n, id.toNat) }
          if update.type = .REMOVE_FROM_NET then
            .ok (d1.setNet n (net.removePinFig id.toNat))
          else .ok d1
        | .via _ =>
          let d1 := { d with regionQuery := d.regionQuery.removeDRObj (n, id.toNat) }
          if update.type = .REMOVE_FROM_NET then
            .ok (d1.setNet n (net.removePinFig id.toNat))
          else .ok d1
        | other =>
          .error (.error 9999 "unknown update type \x7b\x7d" [other.typeId.code], d)
  | .ADD_SHAPE | .ADD_SHAPE_NET_ONLY =>
    match update.objTypeId with
    | .frcPathSeg =>
      match d.getNet update.net with
      | .error e => .error (e, d)
      | .ok (n, net) =>
        let seg := update.pathSeg
        let (net1, sptr) := net.addPinFig (.pathSeg seg)
        let d1 := d.setNet n net1
        if update.type = .ADD_SHAPE then
          .ok { d1 with regionQuery := d1.regionQuery.addDRObj (n, sptr) }
        else .ok d1
    | .frcPatchWire =>
      match d.getNet update.net with
      | .error e => .error (e, d)
      | .ok (n, net) =>
        let pwire := update.patchWire
        let (net1, sptr) := net.addPinFig (.patchWire pwire)
        let d1 := d.setNet n net1
        if update.type = .ADD_SHAPE then
          .ok { d1 with regionQuery := d1.regionQuery.addDRObj (n, sptr) }
        else .ok d1
    | .frcVia =>
      match d.getNet update.net with
      | .error e => .error (e, d)
      | .ok (n, net) =>
        let via := update.via
        let (net1, sptr) := net.addPinFig (.via via)
        let d1 := d.setNet n net1
        if update.type = .ADD_SHAPE then
          .ok { d1 with regionQuery := d1.regionQuery.addDRObj (n, sptr) }
        else .ok d1
    | _ =>
      let marker := update.marker
      let sptr := d.markers.length
      .ok { d with markers := d.markers ++ [some marker]
                   regionQuery := d.regionQuery.addMarker sptr }
  | .ADD_GUIDE =>
    let seg := update.pathSeg
    match d.getNet update.net with
    | .error e => .error (e, d)
    | .ok (n, net) =>
      let tmp := [seg]
      let idx := update.orderInOwner
      if idx < 0 ∨ idx ≥ (net.guides.length : Int) then
        .error (.error 9199 "Guide \x7b\x7d out of range \x7b\x7d"
          [idx, (net.guides.length : Int)], d)
      else
        .ok (d.setNet n { net with guides := net.guides.set idx.toNat { routes := tmp } })
  | .UPDATE_SHAPE =>
    match d.getNet update.net with
    | .error e => .error (e, d)
    | .ok (n, net) =>
      let id := update.orderInOwner
      match net.getPinFig id with
      | none => .error (.undefined "null pin figure", d)
      | some pinfig =>
        match pinfig with
        | .pathSeg seg =>
          let updatedSeg := update.pathSeg
          let seg1 := { seg with beginPoint := updatedSeg.beginPoint
                                 endPoint := updatedSeg.endPoint }
          let style := updatedSeg.style
          let seg2 := { seg1 with style := style }
          let net1 := { net with pinfigs := net.pinfigs.set id.toNat (some (.pathSeg seg2)) }
          let d1 := d.setNet n net1
          .ok { d1 with regionQuery := d1.regionQuery.addDRObj (n, id.toNat) }
        | _ => .ok d

/-- `TritonRoute::applyUpdates`: `maxSz = updates[0].size()`, then for each
round `j < maxSz` and each worker `i < updates.size()` in ascending order the
mutation `updates[i][j]` is applied when batch `i` has an entry `j`.  Reading
`updates[0]` of an empty frame is outside the vector. -/
def applyUpdates (d : frDesign) (updates : List (List drUpdate)) :
    Except (Fatal × frDesign) frDesign :=
  match updates with
  | [] => .error (.undefined "updates[0] of an empty vector", d)
  | b0 :: _ =>
    let maxSz := b0.length
    (List.range maxSz).foldlM (fun d j =>
      (List.range updates.length).foldlM (fun d i =>
        if (updates.getD i []).length ≤ j then
          pure d
        else
          match (updates.getD i [])[j]? with
          | none => pure d
          | some update => applyUpdate d update) d) d

/-- The (worker, round) pairs in the order in which the loops of
`applyUpdates` reach an existing entry: rounds `j` below the length of batch
0, ascending, and within a round the workers `i` whose batch has an entry `j`,
ascending. -/
def schedule (updates : List (List drUpdate)) : List (Nat × Nat) :=
  (List.range (updates.headD []).length).flatMap (fun j =>
    ((List.range updates.length).filter
      (fun i => decide (j < (updates.getD i []).length))).map (fun i => (i, j)))

/-- The mutation of a frame at a (worker, round) pair. -/
def entryAt (updates : List (List drUpdate)) (p : Nat × Nat) : Option drUpdate :=
  (updates.getD p.1 [])[p.2]?

/-- Apply the entry at a (worker, round) pair, if there is one. -/
def applyAt (updates : List (List drUpdate)) (d : frDesign) (p : Nat × Nat) :
    Except (Fatal × frDesign) frDesign :=
  match entryAt updates p with
  | none => pure d
  | some update => applyUpdate d update

end Drt

namespace Dst

/-! ## Transport: `sendMsg`, `readMsg`, `Distributed::sendJob` -/

/-- The `#define MAX_TRIALS 5` of `Distributed.cc`. -/
def MAX_TRIALS : Nat := 5

/-- A `boost::system::error_code` after a read: no error, end of file, or
another error with its `message()`. -/
inductive error_code
  | success
  | eof
  | other (message : String)
  deriving DecidableEq, Repr, Inhabited

/-- What one TCP connection does, as seen by the caller: whether `connect`
throws (with the `what()` of the exception), the error of the k-th `write`
on this socket (`none`: no error), and the error code and buffer content
that `read` leaves. -/
structure Socket where
  connectError : Option String
  writeError : Nat → Option String
  readError : error_code
  received : String

/-- The byte `0`. -/
def NUL : Char := Char.ofNat 0

/-- Conversion `const char*` to `std::string`: the bytes before the first
zero byte (the buffer is followed by a zero byte). -/
def cstr (buffer : String) : String :=
  String.mk (buffer.data.takeWhile (fun c => decide (c ≠ NUL)))

/-- Result of `sendMsg`: the returned flag (`none`: the loop has not returned
within the given number of steps), the out-parameter `errorMsg`, and the
number of `write` calls made on the socket so far. -/
structure SendMsgResult where
  ret : Option Bool
  errorMsg : String
  writes : Nat
  deriving DecidableEq, Repr

/-- The `while (trials < MAX_TRIALS)` loop of `sendMsg`.  The body never
changes `trials`.  `fuel` bounds the number of iterations run. -/
def sendMsgLoop (sock : Socket) :
    (fuel : Nat) → (trials : Nat) → (writes : Nat) → (errorMsg : String) → SendMsgResult
  | 0, _, writes, errorMsg => { ret := none, errorMsg := errorMsg, writes := writes }
  | fuel + 1, trials, writes, errorMsg =>
    if trials < MAX_TRIALS then
      match sock.writeError writes with
      | none => { ret := some true, errorMsg := "", writes := writes + 1 }
      | some message => sendMsgLoop sock fuel trials (writes + 1) message
    else
      { ret := some false, errorMsg := errorMsg, writes := writes }

/-- `sendMsg(sock, msg, errorMsg)`, on a socket with no write made yet. -/
def sendMsg (fuel : Nat) (sock : Socket) (errorMsg : String) : SendMsgResult :=
  sendMsgLoop sock fuel 0 0 errorMsg

/-- `readMsg(sock, dataStr)`: the returned flag and the out-parameter. -/
def readMsg (sock : Socket) : Bool × String :=
  match sock.readError with
  | .other message => (false, message)
  | _ =>
    let dataStr := cstr sock.received
    if dataStr = "" then (false, dataStr) else (true, dataStr)

/-- The two directions of `JobMessage::serializeMsg` (not among the sources),
taken as parameters: `write` is the `WRITE` mode, `read` the `READ` mode;
`none` is the `false` return. -/
structure Serializer (JobMessage : Type) where
  write : JobMessage → Option String
  read : String → Option JobMessage

/-- Observable result of `Distributed::sendJob`: the returned flag (`none`:
not returned within the given number of steps), the response stored in
`result`, the final value of `trials`, the numbers of connections opened and
of `write` and `read` calls, and the warnings logged (id, argument). -/
structure SendJobResult (JobMessage : Type) where
  ret : Option Bool
  result : Option JobMessage
  trials : Nat
  connects : Nat
  writes : Nat
  reads : Nat
  warnings : List (Nat × String)

/-- The `while (trials < MAX_TRIALS)` loop of `Distributed::sendJob` and the
code after it.  `env n` is the connection that the n-th `connect` (counted
from 0) opens; `acc` holds the counters so far. -/
def sendJobLoop {JobMessage : Type} (ser : Serializer JobMessage) (env : Nat → Socket) :
    (fuel : Nat) → (trials : Nat) → (resultStr : String) → SendJobResult JobMessage →
    SendJobResult JobMessage
  | 0, trials, _, acc => { acc with ret := none, trials := trials }
  | fuel + 1, trials, resultStr, acc =>
    if trials < MAX_TRIALS then
      let trials := trials + 1
      let sock := env acc.connects
      let acc := { acc with connects := acc.connects + 1, trials := trials }
      match sock.connectError with
      | some what =>
        { acc with ret := some false, warnings := acc.warnings ++ [(13, what)] }
      | none =>
        let sent := sendMsg fuel sock resultStr
        let acc := { acc with writes := acc.writes + sent.writes }
        match sent.ret with
        | none => { acc with ret := none }
        | some false => sendJobLoop ser env fuel trials sent.errorMsg acc
        | some true =>
          let (ok, resultStr) := readMsg sock
          let acc := { acc with reads := acc.reads + 1 }
          if !ok then
            sendJobLoop ser env fuel trials resultStr acc
          else
            match ser.read resultStr with
            | none => sendJobLoop ser env fuel trials resultStr acc
            | some response => { acc with ret := some true, result := some response }
    else
      let resultStr := if resultStr = "" then "MAX_TRIALS reached" else resultStr
      { acc with ret := some false, trials := trials,
                 warnings := acc.warnings ++ [(14, resultStr)] }

/-- `Distributed::sendJob(msg, ip, port, result)`. -/
def sendJob {JobMessage : Type} (ser : Serializer JobMessage) (env : Nat → Socket)
    (fuel : Nat) (msg : JobMessage) : SendJobResult JobMessage :=
  let start : SendJobResult JobMessage :=
    { ret := none, result := none, trials := 0, connects := 0, writes := 0, reads := 0,
      warnings := [] }
  match ser.write msg with
  | none => { start with ret := some false, warnings := [(12, "")] }
  | some _ => sendJobLoop ser env fuel 0 "" start

/-- Observable result of `Distributed::sendResult`: the returned flag (`none`:
not returned within the given number of steps), the number of `write` calls
made on the socket, and the warnings logged (id, argument). -/
structure SendResultResult where
  ret : Option Bool
  writes : Nat
  warnings : List (Nat × String)
  deriving DecidableEq, Repr

/-- The `while (trials < MAX_TRIALS)` loop of `Distributed::sendResult` and
the code after it.  The body never changes `trials`; every `sendMsg` goes on
writing on the same socket, `writes` counts the writes made on it so far. -/
def sendResultLoop (sock : Socket) :
    (fuel : Nat) → (trials : Nat) → (writes : Nat) → (error : String) → SendResultResult
  | 0, _, writes, _ => { ret := none, writes := writes, warnings := [] }
  | fuel + 1, trials, writes, error =>
    if trials < MAX_TRIALS then
      let sent := sendMsgLoop sock fuel 0 writes error
      match sent.ret with
      | none => { ret := none, writes := sent.writes, warnings := [] }
      | some true => { ret := some true, writes := sent.writes, warnings := [] }
      | some false => sendResultLoop sock fuel trials sent.writes sent.errorMsg
    else
      { ret := some false, writes := writes, warnings := [(22, error)] }

/-- `Distributed::sendResult(msg, sock)`, on an accepted connection. -/
def sendResult {JobMessage : Type} (ser : Serializer JobMessage) (sock : Socket)
    (fuel : Nat) (msg : JobMessage) : SendResultResult :=
  match ser.write msg with
  | none => { ret := some false, writes := 0, warnings := [(20, "")] }
  | some _ => sendResultLoop sock fuel 0 0 ""

/-- Modelled from the spec: the job description `RoutingJobDescription` (its
header is not among the sources): paths on the shared volume, the list of
per-worker update files and the `isIncrementalUpdate` flag. -/
structure RoutingJobDescription where
  designPath : String
  guidePath : String
  globalsPath : String
  sharedDir : String
  updates : List String
  designUpdate : Bool
  deriving DecidableEq, Repr, Inhabited

/-- Job kinds of a `JobMessage`. -/
inductive JobType
  | NONE
  | UPDATE_DESIGN
  deriving DecidableEq, Repr, Inhabited

/-- Targets of a `JobMessage`. -/
inductive MessageType
  | UNICAST
  | BROADCAST
  deriving DecidableEq, Repr, Inhabited

/-- Modelled from the spec: the envelope `JobMessage` (its header is not among
the sources): kind, target and job description. -/
structure JobMessage where
  jobType : JobType
  msgType : MessageType
  desc : Option RoutingJobDescription
  deriving DecidableEq, Repr, Inhabited

end Dst

namespace Drt

/-! ## Snapshot/delta synchronizer: `TritonRoute::sendDesignUpdates` -/

/-- The fields of `TritonRoute` that the synchronizer reads and writes. -/
structure TritonRoute where
  design : frDesign
  distributed : Bool
  shared_volume : String
  dist_ip : String
  dist_port : Nat
  deriving DecidableEq, Repr, Inhabited

/-- Modelled from the spec: `frDesign::hasUpdates`, at least one per-worker
mutation group is pending. -/
def frDesign.hasUpdates (d : frDesign) : Bool := !d.updates.isEmpty

/-- Modelled from the spec: `frDesign::clearUpdates`, empties the pending
mutation log. -/
def frDesign.clearUpdates (d : frDesign) : frDesign := { d with updates := [] }

/-- Modelled from the spec: `frDesign::incrementVersion`, the version grows
by exactly one. -/
def frDesign.incrementVersion (d : frDesign) : frDesign := { d with version := d.version + 1 }

/-- How a call of the synchronizer ends: it returns, it ends with the
exception of `utl::Logger::error`, or it waits for a `sendJob` that does not
return. -/
inductive Ending
  | returned
  | threw (e : Fatal)
  | blocked
  deriving DecidableEq, Repr, Inhabited

/-- What a call of the synchronizer leaves: the object after the call, the
files written to the shared volume, the jobs handed to `sendJob`, and how
the call ended. -/
structure CallResult where
  state : TritonRoute
  files : List (String × List drUpdate)
  sent : List Dst.JobMessage
  ending : Ending
  deriving DecidableEq, Repr, Inhabited

/-- The file name `fmt::format("\x7b\x7dupdates_\x7b\x7d.bin", shared_volume_, i)`. -/
def updatesPath (shared_volume : String) (i : Nat) : String :=
  shared_volume ++ "updates_" ++ toString i ++ ".bin"

/-- The job that `sendDesignUpdates` builds: a `BROADCAST` `UPDATE_DESIGN`
message whose description lists the update files `updates_0.bin`, ...,
one per pending group, the globals path and the shared directory, with the
design-update flag set. -/
def updatesJob (t : TritonRoute) (globals_path : String) : Dst.JobMessage :=
  let designUpdates := t.design.updates
  let updates := (List.range designUpdates.length).map (fun i => updatesPath t.shared_volume i)
  let rjd : Dst.RoutingJobDescription :=
    { designPath := "", guidePath := "", globalsPath := globals_path,
      sharedDir := t.shared_volume, updates := updates, designUpdate := true }
  { jobType := .UPDATE_DESIGN, msgType := .BROADCAST, desc := some rjd }

/-- `TritonRoute::sendDesignUpdates(globals_path)`.  `send` is the call
`dist_->sendJob(msg, dist_ip_, dist_port_, result)`: its returned flag, or
`none` when it does not return.  The profiling tasks are left out. -/
def sendDesignUpdates (send : Dst.JobMessage → Option Bool) (t : TritonRoute)
    (globals_path : String) : CallResult :=
  if !t.distributed then
    { state := t, files := [], sent := [], ending := .returned }
  else if !t.design.hasUpdates then
    { state := t, files := [], sent := [], ending := .returned }
  else
    let designUpdates := t.design.updates
    let files := (List.range designUpdates.length).map
      (fun i => (updatesPath t.shared_volume i, designUpdates.getD i []))
    let msg := updatesJob t globals_path
    match send msg with
    | none => { state := t, files := files, sent := [msg], ending := .blocked }
    | some ok =>
      if !ok then
        { state := t, files := files, sent := [msg],
          ending := .threw (.error 304 "Updating design remotely failed" []) }
      else
        let design1 := t.design.clearUpdates
        let design2 := design1.incrementVersion
        { state := { t with design := design2 }, files := files, sent := [msg],
          ending := .returned }

/-- `TritonRoute::setSharedVolume(vol)`: the volume is stored, and a `/` is
appended when it is not empty and does not end in `/`. -/
def setSharedVolume (t : TritonRoute) (vol : String) : TritonRoute :=
  let shared_volume := vol
  if !shared_volume.isEmpty && shared_volume.data.getLast? != some '/' then
    { t with shared_volume := shared_volume ++ "/" }
  else
    { t with shared_volume := shared_volume }

/-- What a call of `sendDesignDist` leaves: the object after the call, the
paths of the snapshot files written to the shared volume, the jobs handed to
`sendJob`, and how the call ended. -/
structure SnapshotResult where
  state : TritonRoute
  written : List String
  sent : List Dst.JobMessage
  ending : Ending
  deriving DecidableEq, Repr, Inhabited

/-- The job that `sendDesignDist` builds: a `BROADCAST` `UPDATE_DESIGN`
message carrying the design, guide and globals paths on the shared volume and
the shared directory, with the design-update flag cleared. -/
def snapshotJob (t : TritonRoute) : Dst.JobMessage :=
  let design_path := t.shared_volume ++ "DESIGN.db"
  let guide_path := t.shared_volume ++ "DESIGN.guide"
  let globals_path := t.shared_volume ++ "DESIGN.globals"
  let rjd : Dst.RoutingJobDescription :=
    { designPath := design_path, guidePath := guide_path, globalsPath := globals_path,
      sharedDir := t.shared_volume, updates := [], designUpdate := false }
  { jobType := .UPDATE_DESIGN, msgType := .BROADCAST, desc := some rjd }

/-- `TritonRoute::sendDesignDist()`.  `send` is the call of `dist_->sendJob`:
its returned flag, or `none` when it does not return. -/
def sendDesignDist (send : Dst.JobMessage → Option Bool) (t : TritonRoute) : SnapshotResult :=
  if t.distributed then
    let design_path := t.shared_volume ++ "DESIGN.db"
    let guide_path := t.shared_volume ++ "DESIGN.guide"
    let globals_path := t.shared_volume ++ "DESIGN.globals"
    let written := [design_path, guide_path, globals_path]
    let msg := snapshotJob t
    match send msg with
    | none => { state := t, written := written, sent := [msg], ending := .blocked }
    | some ok =>
      if !ok then
        { state := t, written := written, sent := [msg],
          ending := .threw (.error 12304 "Updating design remotely failed" []) }
      else
        { state := { t with design := t.design.clearUpdates }, written := written,
          sent := [msg], ending := .returned }
  else
    { state := { t with design := t.design.clearUpdates }, written := [], sent := [],
      ending := .returned }

/-- The path `<volume>/<name>` of the naming convention of the shared volume,
as the convention words it: the volume, one `/` separator that is added only
when the volume does not already end in `/`, then the fixed name. -/
def conventionPath (volume name : String) : String :=
  if volume.data.getLast? = some '/' then volume ++ name else volume ++ "/" ++ name

/-! ## The buffer of worker results -/

/-- The fields of `TritonRoute` behind `results_mutex_`: the buffer
`workers_results_` and its published size `results_sz_`.  The mutex makes
every call below one step, so calls are taken one after the other. -/
structure ResultsBuffer where
  workers_results : List (Int × String)
  results_sz : Nat
  deriving DecidableEq, Repr, Inhabited

/-- `TritonRoute::addWorkerResults(results)`. -/
def addWorkerResults (b : ResultsBuffer) (results : List (Int × String)) : ResultsBuffer :=
  let workers_results := b.workers_results ++ results
  { workers_results := workers_results, results_sz := workers_results.length }

/-- `TritonRoute::getWorkerResults(results)`: the returned flag, the caller's
list after the call, and the buffer after the call. -/
def getWorkerResults (b : ResultsBuffer) (results : List (Int × String)) :
    Bool × List (Int × String) × ResultsBuffer :=
  if b.workers_results.isEmpty then
    (false, results, b)
  else
    (true, b.workers_results, { workers_results := [], results_sz := 0 })

/-- `TritonRoute::getWorkerResultsSize()`. -/
def getWorkerResultsSize (b : ResultsBuffer) : Nat := b.results_sz

/-- The buffer after a sequence of `addWorkerResults` calls. -/
def addAll (b : ResultsBuffer) (calls : List (List (Int × String))) : ResultsBuffer :=
  calls.foldl addWorkerResults b

end Drt

namespace Drt

/-- `TritonRoute::updateDesign(updatesStrs)`: every listed file is read into
its own batch (`fs` gives the batch that `deserializeUpdate` reads from a
path), then the frame is applied. -/
def updateDesign (fs : String → List drUpdate) (d : frDesign) (updatesStrs : List String) :
    Except (Fatal × frDesign) frDesign :=
  let updates := updatesStrs.map fs
  applyUpdates d updates

/-- Round-major, worker-minor order on (worker, round) pairs: an earlier
round, or the same round and a smaller worker index. -/
def roundMajor (p q : Nat × Nat) : Prop :=
  p.2 < q.2 ∨ (p.2 = q.2 ∧ p.1 < q.1)

instance (p q : Nat × Nat) : Decidable (roundMajor p q) := by
  unfold roundMajor; infer_instance

/-! ### Concrete data used in the examples -/

/-- A path segment from `(x0, y0)` to `(x1, y1)` on layer 2. -/
def mkSeg (x0 y0 x1 y1 : Int) : frPathSeg :=
  { beginPoint := ⟨x0, y0⟩, endPoint := ⟨x1, y1⟩, layer := 2,
    style := { beginExt := 0, endExt := 0, width := 10, beginStyle := 0, endStyle := 0 } }

/-- Payload `P1` of the scenario. -/
def segP1 : frPathSeg := mkSeg 0 0 100 0

/-- Payload `P2` of the scenario. -/
def segP2 : frPathSeg :=
  { beginPoint := ⟨5, 5⟩, endPoint := ⟨5, 50⟩, layer := 2,
    style := { beginExt := 1, endExt := 2, width := 20, beginStyle := 1, endStyle := 1 } }

/-- Net `netX` (id 0): three path segments in slots 0, 1, 2; one guide. -/
def netX : frNet :=
  { pinfigs := [some (.pathSeg (mkSeg 0 0 0 10)), some (.pathSeg (mkSeg 0 10 0 20)),
                some (.pathSeg (mkSeg 0 20 0 30))],
    guides := [{ routes := [] }] }

/-- Net `netY` (id 1): two path segments in slots 0, 1; two guides. -/
def netY : frNet :=
  { pinfigs := [some (.pathSeg (mkSeg 7 0 7 10)), some (.pathSeg (mkSeg 7 10 7 20))],
    guides := [{ routes := [] }, { routes := [mkSeg 1 1 2 2] }] }

/-- A design holding `netX` and `netY`, all their children in the spatial
index. -/
def design0 : frDesign :=
  { nets := [netX, netY], markers := [],
    regionQuery := { drObjs := [(0, 0), (0, 1), (0, 2), (1, 0), (1, 1)], markers := [] },
    updates := [], version := 0 }

/-- A mutation with the given tag, net and index and a path-segment payload. -/
def mkUpdate (type : UpdateType) (net : Nat) (idx : Int) (seg : frPathSeg) : drUpdate :=
  { type := type, net := some net, orderInOwner := idx, objTypeId := .frcPathSeg,
    pathSeg := seg, patchWire := default, via := default, marker := default }

/-- Batch of worker A: `ADD_SHAPE(netX, P1)`, then `REMOVE_FROM_NET(netX, 2)`. -/
def batchA : List drUpdate :=
  [mkUpdate .ADD_SHAPE 0 5 segP1, mkUpdate .REMOVE_FROM_NET 0 2 default]

/-- Batch of worker B: `UPDATE_SHAPE(netY, 1, P2)`. -/
def batchB : List drUpdate :=
  [mkUpdate .UPDATE_SHAPE 1 1 segP2]

/-- End state of the scenario when the frame is `[batchA, batchB]`: `netX`
holds `P1` in slot 3 and nothing in slot 2, `netY` holds `P2` in slot 1. -/
def endAB : frDesign :=
  { nets := [{ pinfigs := [some (.pathSeg (mkSeg 0 0 0 10)), some (.pathSeg (mkSeg 0 10 0 20)),
                           none, some (.pathSeg segP1)],
               guides := [{ routes := [] }] },
             { pinfigs := [some (.pathSeg (mkSeg 7 0 7 10)), some (.pathSeg segP2)],
               guides := [{ routes := [] }, { routes := [mkSeg 1 1 2 2] }] }],
    markers := [],
    regionQuery := { drObjs := [(0, 0), (0, 1), (1, 0), (1, 1), (0, 3)], markers := [] },
    updates := [], version := 0 }

/-- End state of the scenario when the frame is `[batchB, batchA]`: `netX`
still holds its old child in slot 2. -/
def endBA : frDesign :=
  { nets := [{ pinfigs := [some (.pathSeg (mkSeg 0 0 0 10)), some (.pathSeg (mkSeg 0 10 0 20)),
                           some (.pathSeg (mkSeg 0 20 0 30)), some (.pathSeg segP1)],
               guides := [{ routes := [] }] },
             { pinfigs := [some (.pathSeg (mkSeg 7 0 7 10)), some (.pathSeg segP2)],
               guides := [{ routes := [] }, { routes := [mkSeg 1 1 2 2] }] }],
    markers := [],
    regionQuery := { drObjs := [(0, 0), (0, 1), (0, 2), (1, 0), (1, 1), (0, 3)], markers := [] },
    updates := [], version := 0 }

/-- Shared volume of the scenario: worker A wrote `a.bin`, worker B `b.bin`. -/
def scenarioFiles (path : String) : List drUpdate :=
  if path = "a.bin" then batchA else if path = "b.bin" then batchB else []

/-- A coordinator in distributed mode with two pending mutation groups, at
version 3. -/
def router0 : TritonRoute :=
  { design := { design0 with updates := [batchA, batchB], version := 3 },
    distributed := true, shared_volume := "/vol/", dist_ip := "10.0.0.1", dist_port := 1234 }

/-- A mutation with the given tag that carries a marker and no net. -/
def markerUpdate (type : UpdateType) (marker : frMarker) : drUpdate :=
  { type := type, net := none, orderInOwner := 0, objTypeId := .frcMarker,
    pathSeg := default, patchWire := default, via := default, marker := marker }

/-- Net `netR` (id 2): a rectangle in slot 0, a via in slot 1, a patch wire
in slot 2. -/
def netR : frNet :=
  { pinfigs := [some (.rect ⟨0, 0⟩ ⟨5, 5⟩), some (.via { origin := ⟨1, 1⟩, viaDef := 7 }),
                some (.patchWire { origin := ⟨2, 2⟩, lowerLeft := ⟨0, 0⟩, upperRight := ⟨1, 1⟩,
                                   layer := 2 })],
    guides := [] }

/-- A design holding `netX`, `netY` and `netR`, all their children in the
spatial index. -/
def designR : frDesign :=
  { nets := [netX, netY, netR], markers := [],
    regionQuery := { drObjs := [(0, 0), (0, 1), (0, 2), (1, 0), (1, 1), (2, 0), (2, 1), (2, 2)],
                     markers := [] },
    updates := [], version := 0 }

/-- The design `designR` after the via of `netR` left the spatial index. -/
def designAfterRq : frDesign :=
  { designR with
    regionQuery := { drObjs := [(0, 0), (0, 1), (0, 2), (1, 0), (1, 1), (2, 0), (2, 2)],
                     markers := [] } }

/-- A batch that takes the via of `netR` out of the spatial index, then asks
to remove its rectangle, then to remove a child of `netX`. -/
def batchUnknownTag : List drUpdate :=
  [mkUpdate .REMOVE_FROM_RQ 2 1 default, mkUpdate .REMOVE_FROM_NET 2 0 default,
   mkUpdate .REMOVE_FROM_NET 0 0 default]

/-- A coordinator with distributed mode off and two pending mutation groups. -/
def routerLocal : TritonRoute :=
  { router0 with distributed := false }

/-- A coordinator in distributed mode with no pending mutation group. -/
def routerIdle : TritonRoute :=
  { router0 with design := { design0 with updates := [], version := 3 } }

/-- An `ADD_GUIDE` mutation for guide `idx` of net `net`. -/
def guideUpdate (net : Nat) (idx : Int) : drUpdate :=
  mkUpdate .ADD_GUIDE net idx segP1

end Drt

namespace Dst

/-- What the result `r` of the loop of `sendJob` satisfies when the loop is
entered with `start` connections opened, the counters `writes` and `reads`,
and the value `trials`: the counter of connections only grows, it moves in
step with `trials`, `trials` stays within the budget, and a failed connect
is the last thing the call did. -/
def ConnectInv {JobMessage : Type} (env : Nat → Socket) (r : SendJobResult JobMessage)
    (start writes reads trials : Nat) : Prop :=
  start ≤ r.connects ∧ r.trials + start = trials + r.connects ∧
    r.trials ≤ max trials MAX_TRIALS ∧
    ∀ k what, start ≤ k → k < r.connects → (env k).connectError = some what →
      r.ret = some false ∧ r.connects = k + 1 ∧ r.warnings.getLast? = some (13, what) ∧
        (k = start → r.writes = writes ∧ r.reads = reads)

/-- What the read and the deserialization of one attempt give: the response
when `readMsg` succeeds and its string deserializes, nothing otherwise. -/
def reply {JobMessage : Type} (ser : Serializer JobMessage) (sock : Socket) :
    Option JobMessage :=
  match readMsg sock with
  | (true, dataStr) => ser.read dataStr
  | (false, _) => none

/-- The returned flag, the stored response and the counters of a result: all
of it but the text of the warnings. -/
def SendJobResult.counters {JobMessage : Type} (r : SendJobResult JobMessage) :
    Option Bool × Option JobMessage × Nat × Nat × Nat × Nat :=
  (r.ret, r.result, r.trials, r.connects, r.writes, r.reads)

/-- Two connections that connect alike, fail their writes alike and give the
same `reply`; the texts of their error messages and of an unusable response
may differ. -/
def SameAttempt {JobMessage : Type} (ser : Serializer JobMessage) (s1 s2 : Socket) : Prop :=
  s1.connectError.isSome = s2.connectError.isSome ∧
    (∀ k, (s1.writeError k).isSome = (s2.writeError k).isSome) ∧
    reply ser s1 = reply ser s2

/-- The string that the loop of `sendJob` holds after `n` failed attempts on
the connections `start, start + 1, ...`, when it held `resultStr` before. -/
def lastCaptured (env : Nat → Socket) (start n : Nat) (resultStr : String) : String :=
  if n = 0 then resultStr else (readMsg (env (start + n - 1))).2

/-! ### Concrete connections used in the examples -/

/-- A serializer of string messages: the message is its own wire format, and
a response deserializes when it starts with `R`. -/
def textSerializer : Serializer String :=
  { write := fun m => some m
    read := fun s => if s.data.head? = some (Char.ofNat 82) then some s else none }

/-- A connection that is accepted, whose every write fails. -/
def brokenPipe : Socket :=
  { connectError := none, writeError := fun _ => some "Broken pipe",
    readError := .success, received := "" }

/-- A connection that is accepted and written, whose read is reset. -/
def resetOnRead : Socket :=
  { connectError := none, writeError := fun _ => none,
    readError := .other "Connection reset by peer", received := "" }

/-- A connection that is accepted and written, whose peer closes at once. -/
def emptyReply : Socket :=
  { connectError := none, writeError := fun _ => none, readError := .eof, received := "" }

/-- A connection that is accepted and written, whose response is unusable. -/
def garbageReply : Socket :=
  { connectError := none, writeError := fun _ => none, readError := .eof, received := "x" }

/-- A connection that is accepted, written and answered with `R1`. -/
def goodReply : Socket :=
  { connectError := none, writeError := fun _ => none, readError := .eof, received := "R1" }

/-- A peer that refuses the connection. -/
def refused : Socket :=
  { connectError := some "Connection refused", writeError := fun _ => none,
    readError := .success, received := "" }

/-- Four connections whose writes all fail, then one that works. -/
def envWriteFailsThenGood : Nat → Socket :=
  fun n => if n < 4 then brokenPipe else goodReply

/-- A connection reset on read, then connections whose writes all fail. -/
def envResetThenWriteFails : Nat → Socket :=
  fun n => if n = 0 then resetOnRead else brokenPipe

/-- Two connections reset on read, then a peer that refuses. -/
def envRefusedThird : Nat → Socket :=
  fun n => if n < 2 then resetOnRead else refused

/-- Connections that are all reset on read. -/
def envAllReset : Nat → Socket :=
  fun _ => resetOnRead

/-- As `envAllReset`, but the third connection gets an unusable response. -/
def envGarbageThird : Nat → Socket :=
  fun n => if n = 2 then garbageReply else resetOnRead

/-- A connection whose read ends at end of file with the five bytes
`97, 98, 0, 99, 100`: a message with a zero byte in the middle. -/
def nulInside : Socket :=
  { connectError := none, writeError := fun _ => none, readError := .eof,
    received := String.mk [Char.ofNat 97, Char.ofNat 98, NUL, Char.ofNat 99, Char.ofNat 100] }

/-- A connection whose read ends at end of file with the bytes `0, 97`. -/
def nulFirst : Socket :=
  { connectError := none, writeError := fun _ => none, readError := .eof,
    received := String.mk [NUL, Char.ofNat 97] }

end Dst

namespace Dst

/-! ## Worker broker: `LoadBalancer` -/

/-- `LoadBalancer::worker`: address, port and priority (an `unsigned short`). -/
structure worker where
  ip_ : String
  port_ : Nat
  priority_ : Nat
  deriving DecidableEq, Repr, Inhabited

/-- `LoadBalancer::CompareWorker::operator()`. -/
def CompareWorker (w1 w2 : worker) : Bool :=
  decide (w1.priority_ < w2.priority_)

/-- The loop of `std::push_heap` on the container `c` of a
`std::priority_queue<worker, std::vector<worker>, CompareWorker>` (C++
standard library): while the hole is not the root and its parent compares
less than the value, the parent moves down into the hole; then the value is
stored in the hole. -/
def push_heap_loop (cs : List worker) (holeIndex : Nat) (value : worker) : List worker :=
  if h : 0 < holeIndex ∧
      CompareWorker (cs.getD ((holeIndex - 1) / 2) value) value = true then
    push_heap_loop (cs.set holeIndex (cs.getD ((holeIndex - 1) / 2) value))
      ((holeIndex - 1) / 2) value
  else
    cs.set holeIndex value
termination_by holeIndex
decreasing_by omega

/-- `std::priority_queue::push(x)`: `c.push_back(x)`, then
`std::push_heap(c.begin(), c.end(), comp)`. -/
def priority_queue_push (cs : List worker) (x : worker) : List worker :=
  push_heap_loop (cs ++ [x]) cs.length x

/-- `std::priority_queue::top()`: `c.front()`. -/
def priority_queue_top (cs : List worker) : Option worker :=
  cs.head?

/-- `std::is_heap(c.begin(), c.end(), comp)` for `CompareWorker`: no element
has a parent that compares less than it. -/
def is_heap (cs : List worker) : Prop :=
  ∀ (i : Nat) (a b : worker), 0 < i → cs[i]? = some b → cs[(i - 1) / 2]? = some a →
    CompareWorker a b = false

/-- Modelled from the spec: `LoadBalancer::addWorker(ip, port, avail)` (its
body is not among the sources), the endpoint is inserted into the priority
structure `workers_`. -/
def addWorker (workers : List worker) (ip : String) (port avail : Nat) : List worker :=
  priority_queue_push workers { ip_ := ip, port_ := port, priority_ := avail }

/-- The queue `workers_` after the given workers were registered, in order,
on an empty queue. -/
def registerAll (ws : List worker) : List worker :=
  ws.foldl (fun q w => addWorker q w.ip_ w.port_ w.priority_) []

/-- What `push_heap_loop` needs of the container with the hole at `h` and the
pending value `v`: heap order between elements away from the hole, every
child of the hole not above `v`, and every child of the hole not above the
parent of the hole. -/
def HoleInv (cs : List worker) (h : Nat) (v : worker) : Prop :=
  (∀ (j : Nat) (a b : worker), 0 < j → j ≠ h → (j - 1) / 2 ≠ h →
      cs[j]? = some b → cs[(j - 1) / 2]? = some a → b.priority_ ≤ a.priority_) ∧
    (∀ (j : Nat) (b : worker), 0 < j → (j - 1) / 2 = h → cs[j]? = some b →
      b.priority_ ≤ v.priority_) ∧
    (∀ (j : Nat) (a b : worker), 0 < j → (j - 1) / 2 = h → 0 < h →
      cs[j]? = some b → cs[(h - 1) / 2]? = some a → b.priority_ ≤ a.priority_)

/-- Three workers with the priorities 3, 10 and 7. -/
def threeWorkers : List worker :=
  [{ ip_ := "10.0.0.1", port_ := 1111, priority_ := 3 },
   { ip_ := "10.0.0.2", port_ := 1112, priority_ := 10 },
   { ip_ := "10.0.0.3", port_ := 1113, priority_ := 7 }]

end Dst

namespace Drt

/-! ## Serialization of mutation batches -/

/-- Modelled from the spec: the numeric value under which the archive stores
an operation tag (`drUpdate::UpdateType`; the archive classes `frOArchive`,
`frIArchive` and `drUpdate::serialize` are not among the sources). -/
def UpdateType.code : UpdateType → Int
  | .REMOVE_FROM_BLOCK => 0
  | .REMOVE_FROM_NET => 1
  | .REMOVE_FROM_RQ => 2
  | .ADD_SHAPE => 3
  | .ADD_SHAPE_NET_ONLY => 4
  | .ADD_GUIDE => 5
  | .UPDATE_SHAPE => 6

/-- Modelled from the spec: the operation tag read back from its stored
value; an unknown value is rejected. -/
def UpdateType.ofCode (x : Int) : Option UpdateType :=
  if x = 0 then some .REMOVE_FROM_BLOCK
  else if x = 1 then some .REMOVE_FROM_NET
  else if x = 2 then some .REMOVE_FROM_RQ
  else if x = 3 then some .ADD_SHAPE
  else if x = 4 then some .ADD_SHAPE_NET_ONLY
  else if x = 5 then some .ADD_GUIDE
  else if x = 6 then some .UPDATE_SHAPE
  else none

/-- Modelled from the spec: the object-type tag read back from its stored
value; an unknown value is rejected. -/
def frBlockObjectEnum.ofCode (x : Int) : Option frBlockObjectEnum :=
  if x = 0 then some .frcPathSeg
  else if x = 1 then some .frcPatchWire
  else if x = 2 then some .frcVia
  else if x = 3 then some .frcMarker
  else if x = 4 then some .frcGuide
  else if x = 5 then some .frcRect
  else none

/-- Modelled from the spec: one integer in `WRITE` mode. -/
def writeInt (x : Int) : List Int := [x]

/-- Modelled from the spec: one integer in `READ` mode; the result is the
value and the rest of the stream, `none` when the stream has ended. -/
def readInt : List Int → Option (Int × List Int)
  | [] => none
  | x :: rest => some (x, rest)

/-- Modelled from the spec: one unsigned integer in `WRITE` mode. -/
def writeNat (n : Nat) : List Int := [(n : Int)]

/-- Modelled from the spec: one unsigned integer in `READ` mode; a negative
value is rejected. -/
def readNat : List Int → Option (Nat × List Int)
  | [] => none
  | x :: rest => if 0 ≤ x then some (x.toNat, rest) else none

/-- Modelled from the spec: a point in `WRITE` mode. -/
def writePoint (p : frPoint) : List Int := writeInt p.x ++ writeInt p.y

/-- Modelled from the spec: a point in `READ` mode. -/
def readPoint (s : List Int) : Option (frPoint × List Int) :=
  match readInt s with
  | none => none
  | some (x, s1) =>
    match readInt s1 with
    | none => none
    | some (y, s2) => some ({ x := x, y := y }, s2)

/-- Modelled from the spec: a segment style in `WRITE` mode. -/
def writeStyle (st : frSegStyle) : List Int :=
  writeNat st.beginExt ++ writeNat st.endExt ++ writeNat st.width ++ writeNat st.beginStyle ++
    writeNat st.endStyle

/-- Modelled from the spec: a segment style in `READ` mode. -/
def readStyle (s : List Int) : Option (frSegStyle × List Int) :=
  match readNat s with
  | none => none
  | some (a, s1) =>
    match readNat s1 with
    | none => none
    | some (b, s2) =>
      match readNat s2 with
      | none => none
      | some (w, s3) =>
        match readNat s3 with
        | none => none
        | some (bs, s4) =>
          match readNat s4 with
          | none => none
          | some (es, s5) =>
            some ({ beginExt := a, endExt := b, width := w, beginStyle := bs, endStyle := es },
              s5)

/-- Modelled from the spec: a path segment in `WRITE` mode. -/
def writePathSeg (seg : frPathSeg) : List Int :=
  writePoint seg.beginPoint ++ writePoint seg.endPoint ++ writeInt seg.layer ++
    writeStyle seg.style

/-- Modelled from the spec: a path segment in `READ` mode. -/
def readPathSeg (s : List Int) : Option (frPathSeg × List Int) :=
  match readPoint s with
  | none => none
  | some (b, s1) =>
    match readPoint s1 with
    | none => none
    | some (e, s2) =>
      match readInt s2 with
      | none => none
      | some (l, s3) =>
        match readStyle s3 with
        | none => none
        | some (st, s4) => some ({ beginPoint := b, endPoint := e, layer := l, style := st }, s4)

/-- Modelled from the spec: a patch wire in `WRITE` mode. -/
def writePatchWire (pw : frPatchWire) : List Int :=
  writePoint pw.origin ++ writePoint pw.lowerLeft ++ writePoint pw.upperRight ++
    writeInt pw.layer

/-- Modelled from the spec: a patch wire in `READ` mode. -/
def readPatchWire (s : List Int) : Option (frPatchWire × List Int) :=
  match readPoint s with
  | none => none
  | some (o, s1) =>
    match readPoint s1 with
    | none => none
    | some (ll, s2) =>
      match readPoint s2 with
      | none => none
      | some (ur, s3) =>
        match readInt s3 with
        | none => none
        | some (l, s4) =>
          some ({ origin := o, lowerLeft := ll, upperRight := ur, layer := l }, s4)

/-- Modelled from the spec: a via in `WRITE` mode. -/
def writeVia (v : frVia) : List Int := writePoint v.origin ++ writeNat v.viaDef

/-- Modelled from the spec: a via in `READ` mode. -/
def readVia (s : List Int) : Option (frVia × List Int) :=
  match readPoint s with
  | none => none
  | some (o, s1) =>
    match readNat s1 with
    | none => none
    | some (vd, s2) => some ({ origin := o, viaDef := vd }, s2)

/-- Modelled from the spec: a marker in `WRITE` mode. -/
def writeMarker (m : frMarker) : List Int :=
  writePoint m.lowerLeft ++ writePoint m.upperRight ++ writeInt m.layer

/-- Modelled from the spec: a marker in `READ` mode. -/
def readMarker (s : List Int) : Option (frMarker × List Int) :=
  match readPoint s with
  | none => none
  | some (ll, s1) =>
    match readPoint s1 with
    | none => none
    | some (ur, s2) =>
      match readInt s2 with
      | none => none
      | some (l, s3) => some ({ lowerLeft := ll, upperRight := ur, layer := l }, s3)

/-- Modelled from the spec: the owning net in `WRITE` mode under shallow
serialization, its identifier behind a presence flag (the owner is
nullable). -/
def writeNet : Option Nat → List Int
  | none => writeInt 0
  | some n => writeInt 1 ++ writeNat n

/-- Modelled from the spec: the owning net in `READ` mode. -/
def readNet (s : List Int) : Option (Option Nat × List Int) :=
  match readInt s with
  | none => none
  | some (flag, s1) =>
    if flag = 0 then some (none, s1)
    else if flag = 1 then
      match readNat s1 with
      | none => none
      | some (n, s2) => some (some n, s2)
    else none

/-- Modelled from the spec: one mutation in `WRITE` mode: operation tag,
owner, index in the owner, object-type tag, payload. -/
def writeUpdate (u : drUpdate) : List Int :=
  writeInt u.type.code ++ writeNet u.net ++ writeInt u.orderInOwner ++
    writeInt u.objTypeId.code ++ writePathSeg u.pathSeg ++ writePatchWire u.patchWire ++
    writeVia u.via ++ writeMarker u.marker

/-- Modelled from the spec: one mutation in `READ` mode, the fields in the
order in which they were written. -/
def readUpdate (s : List Int) : Option (drUpdate × List Int) :=
  match readInt s with
  | none => none
  | some (tc, s1) =>
    match UpdateType.ofCode tc with
    | none => none
    | some type =>
      match readNet s1 with
      | none => none
      | some (net, s2) =>
        match readInt s2 with
        | none => none
        | some (idx, s3) =>
          match readInt s3 with
          | none => none
          | some (oc, s4) =>
            match frBlockObjectEnum.ofCode oc with
            | none => none
            | some objTypeId =>
              match readPathSeg s4 with
              | none => none
              | some (seg, s5) =>
                match readPatchWire s5 with
                | none => none
                | some (pw, s6) =>
                  match readVia s6 with
                  | none => none
                  | some (via, s7) =>
                    match readMarker s7 with
                    | none => none
                    | some (marker, s8) =>
                      some ({ type := type, net := net, orderInOwner := idx,
                              objTypeId := objTypeId, pathSeg := seg, patchWire := pw,
                              via := via, marker := marker }, s8)

/-- Modelled from the spec: the mutations of a batch in `WRITE` mode, one
after the other. -/
def writeUpdates : List drUpdate → List Int
  | [] => []
  | u :: us => writeUpdate u ++ writeUpdates us

/-- Modelled from the spec: `count` mutations in `READ` mode. -/
def readUpdates : (count : Nat) → List Int → Option (List drUpdate × List Int)
  | 0, s => some ([], s)
  | count + 1, s =>
    match readUpdate s with
    | none => none
    | some (u, s1) =>
      match readUpdates count s1 with
      | none => none
      | some (us, s2) => some (u :: us, s2)

/-- Modelled from the spec: `ar << batch` on an `frOArchive` with shallow
serialization: the number of mutations, then the mutations. -/
def writeBatch (batch : List drUpdate) : List Int :=
  writeNat batch.length ++ writeUpdates batch

/-- Modelled from the spec: `ar >> updates` on an `frIArchive` with shallow
serialization; `none` when the archive rejects the content. -/
def readBatch (s : List Int) : Option (List drUpdate × List Int) :=
  match readNat s with
  | none => none
  | some (count, s1) => readUpdates count s1

/-- `serializeUpdatesBatch(batch, file_name)`: the file `file_name` of the
shared volume is (re)written with the archive of the batch.  The volume maps
a path to the content of the file there, if any. -/
def serializeUpdatesBatch (volume : String → Option (List Int)) (batch : List drUpdate)
    (file_name : String) : String → Option (List Int) :=
  fun path => if path = file_name then some (writeBatch batch) else volume path

/-- `deserializeUpdate(design, updateStr, updates)`: the vector `updates`
after the call; `none` when the file cannot be read as an archive (the
archive throws).  What the vector held before is replaced; owners stay
identifiers here, so the design given to the archive is not consulted. -/
def deserializeUpdate (volume : String → Option (List Int)) (_design : frDesign)
    (updateStr : String) (_updates : List drUpdate) : Option (List drUpdate) :=
  match volume updateStr with
  | none => none
  | some content =>
    match readBatch content with
    | none => none
    | some (batch, _) => some batch

end Drt

/-! # Properties -/

namespace Drt

/-! ## Replay order of `applyUpdates` -/

/-- A fold over a concatenation of blocks is the nested fold. -/
theorem foldlM_flatMap {m : Type → Type} [Monad m] [LawfulMonad m] {α β σ : Type}
    (f : σ → β → m σ) (g : α → List β) (l : List α) (s : σ) :
    (l.flatMap g).foldlM f s = l.foldlM (fun s a => (g a).foldlM f s) s := by
  induction l generalizing s with
  | nil => simp
  | cons a l ih =>
    simp only [List.flatMap_cons, List.foldlM_append, List.foldlM_cons]
    exact bind_congr (fun s1 => ih s1)

/-- The inner loop over the workers, for one round `j`, applies the entries
`(i, j)` of the workers that have one, in the order of the worker list. -/
theorem inner_loop_eq (updates : List (List drUpdate)) (j : Nat) (l : List Nat) (d : frDesign) :
    l.foldlM (fun d i =>
        if (updates.getD i []).length ≤ j then
          (pure d : Except (Fatal × frDesign) frDesign)
        else
          match (updates.getD i [])[j]? with
          | none => pure d
          | some update => applyUpdate d update) d
      = ((l.filter (fun i => decide (j < (updates.getD i []).length))).map
          (fun i => (i, j))).foldlM (applyAt updates) d := by
  induction l generalizing d with
  | nil => simp
  | cons i l ih =>
    by_cases h : j < (updates.getD i []).length
    · have h1 : ¬ (updates.getD i []).length ≤ j := by omega
      simp only [List.foldlM_cons, h1, if_false, List.filter_cons, h, decide_True, if_true,
        List.map_cons, applyAt, entryAt]
      exact bind_congr (fun s1 => ih s1)
    · have h1 : (updates.getD i []).length ≤ j := by omega
      simp only [List.foldlM_cons, h1, if_true, List.filter_cons, h, decide_False, pure_bind]
      simpa using ih d

/-- On a frame with at least one batch, `applyUpdates` applies the entries
at the pairs of `schedule`, in that order. -/
theorem applyUpdates_cons (d : frDesign) (b0 : List drUpdate) (rest : List (List drUpdate)) :
    applyUpdates d (b0 :: rest)
      = (schedule (b0 :: rest)).foldlM (applyAt (b0 :: rest)) d := by
  unfold applyUpdates schedule
  simp only [List.headD_cons]
  rw [foldlM_flatMap]
  congr 1
  funext d j
  exact inner_loop_eq (b0 :: rest) j _ d

/-- The pairs that `applyUpdates` reaches: worker `i` of the frame, round `j`
inside batch `i` and below the length of batch 0. -/
theorem mem_schedule (updates : List (List drUpdate)) (p : Nat × Nat) :
    p ∈ schedule updates ↔
      p.1 < updates.length ∧ p.2 < (updates.getD p.1 []).length ∧
        p.2 < (updates.headD []).length := by
  obtain ⟨i, j⟩ := p
  simp only [schedule, List.mem_flatMap, List.mem_range, List.mem_map, List.mem_filter,
    decide_eq_true_eq, Prod.mk.injEq]
  constructor
  · rintro ⟨j1, hj1, i1, ⟨hi1, hlen⟩, rfl, rfl⟩
    exact ⟨hi1, hlen, hj1⟩
  · rintro ⟨hi, hlen, hj⟩
    exact ⟨j, hj, i, ⟨hi, hlen⟩, rfl, rfl⟩

/-- The schedule is strictly increasing in round-major, worker-minor order. -/
theorem schedule_pairwise (updates : List (List drUpdate)) :
    (schedule updates).Pairwise roundMajor := by
  unfold schedule
  rw [List.pairwise_flatMap]
  constructor
  · intro j _
    rw [List.pairwise_map]
    apply List.Pairwise.filter
    exact (List.pairwise_lt_range _).imp (fun h => Or.inr ⟨rfl, h⟩)
  · refine (List.pairwise_lt_range _).imp ?_
    intro j1 j2 hlt x hx y hy
    simp only [List.mem_map, List.mem_filter] at hx hy
    obtain ⟨_, _, rfl⟩ := hx
    obtain ⟨_, _, rfl⟩ := hy
    exact Or.inl hlt

/-- Two different members of a list occur in it one before the other. -/
theorem pair_sublist_of_mem {α : Type} {a b : α} (hab : a ≠ b) :
    ∀ l : List α, a ∈ l → b ∈ l → [a, b].Sublist l ∨ [b, a].Sublist l
  | [], ha, _ => by simp at ha
  | x :: xs, ha, hb => by
    rcases List.mem_cons.1 ha with rfl | ha1
    · rcases List.mem_cons.1 hb with rfl | hb1
      · exact absurd rfl hab
      · exact Or.inl (List.Sublist.cons₂ _ (List.singleton_sublist.2 hb1))
    · rcases List.mem_cons.1 hb with rfl | hb1
      · exact Or.inr (List.Sublist.cons₂ _ (List.singleton_sublist.2 ha1))
      · rcases pair_sublist_of_mem hab xs ha1 hb1 with h | h
        · exact Or.inl (List.Sublist.cons _ h)
        · exact Or.inr (List.Sublist.cons _ h)

/-- C2.  For every frame, `applyUpdates` applies the entries of `schedule` in
list order (an empty frame applies nothing: reading `updates[0]` fails), and
that order is round-major, worker-minor: the schedule is strictly increasing
for `roundMajor`, so whenever both `(i, j)` and `(i', j')` are applied and
`j < j'`, or `j = j'` and `i < i'`, the first occurs before the second; in
particular every entry of round `j` precedes every entry of round `j + 1`. -/
theorem applyUpdates_round_major (d : frDesign) (updates : List (List drUpdate)) :
    (applyUpdates d updates =
        if updates = [] then .error (.undefined "updates[0] of an empty vector", d)
        else (schedule updates).foldlM (applyAt updates) d) ∧
      (schedule updates).Pairwise roundMajor ∧
      (∀ p q, p ∈ schedule updates → q ∈ schedule updates → roundMajor p q →
        [p, q].Sublist (schedule updates)) ∧
      (∀ p q, p ∈ schedule updates → q ∈ schedule updates → q.2 = p.2 + 1 →
        [p, q].Sublist (schedule updates)) := by
  have hsub : ∀ p q, p ∈ schedule updates → q ∈ schedule updates → roundMajor p q →
      [p, q].Sublist (schedule updates) := by
    intro p q hp hq hpq
    have hne : p ≠ q := by
      rintro rfl
      unfold roundMajor at hpq
      omega
    rcases pair_sublist_of_mem hne _ hp hq with h | h
    · exact h
    · have hqp := (schedule_pairwise updates).sublist h
      simp only [List.pairwise_cons, List.mem_singleton, forall_eq] at hqp
      have := hqp.1
      unfold roundMajor at hpq this
      omega
  refine ⟨?_, schedule_pairwise updates, hsub, ?_⟩
  · cases updates with
    | nil => simp [applyUpdates]
    | cons b0 rest => simpa using applyUpdates_cons d b0 rest
  · intro p q hp hq hround
    exact hsub p q hp hq (Or.inl (by omega))

/-- C2 at concrete inputs: in the frame `[batchA, batchB]` the entry
`(1, 0)` of round 0 is applied before the entry `(0, 1)` of round 1. -/
theorem applyUpdates_round_major_witness :
    (1, 0) ∈ schedule [batchA, batchB] ∧ (0, 1) ∈ schedule [batchA, batchB] ∧
      roundMajor (1, 0) (0, 1) ∧ [(1, 0), (0, 1)].Sublist (schedule [batchA, batchB]) :=
  ⟨by decide, by decide, by decide,
    (applyUpdates_round_major design0 [batchA, batchB]).2.2.1 (1, 0) (0, 1)
      (by decide) (by decide) (by decide)⟩

/-! ## The bound of the round loop -/

/-- C1.  On the frame `[[], [m]]` (worker 0 found nothing, worker 1 has one
mutation) `applyUpdates` returns the design unchanged: the round loop is
bounded by the length of batch 0, so the entry `(1, 0)` is never reached and
`m` is not applied, although the longest batch has length 1. -/
theorem applyUpdates_skips_beyond_first_batch (d : frDesign) (m : drUpdate) :
    applyUpdates d [[], [m]] = .ok d ∧ schedule [[], [m]] = [] ∧
      entryAt [[], [m]] (1, 0) = some m ∧ (1, 0) ∉ schedule [[], [m]] := by
  refine ⟨rfl, rfl, rfl, ?_⟩
  simp [schedule]

/-- When batch 0 is a longest batch, the schedule is the enumeration of all
`(i, j)` with `j` inside batch `i`, each exactly once. -/
theorem schedule_complete_of_first_longest (updates : List (List drUpdate))
    (hmax : ∀ b ∈ updates, b.length ≤ (updates.headD []).length) :
    (schedule updates).Nodup ∧
      ∀ p : Nat × Nat, p ∈ schedule updates ↔
        p.1 < updates.length ∧ p.2 < (updates.getD p.1 []).length := by
  constructor
  · refine (schedule_pairwise updates).imp ?_
    intro p q hpq heq
    subst heq
    unfold roundMajor at hpq
    omega
  · intro p
    rw [mem_schedule]
    constructor
    · rintro ⟨h1, h2, _⟩
      exact ⟨h1, h2⟩
    · rintro ⟨h1, h2⟩
      refine ⟨h1, h2, lt_of_lt_of_le h2 (hmax _ ?_)⟩
      rw [List.getD_eq_getElem _ _ h1]
      exact List.getElem_mem h1

/-- C3.  The scenario, in both placements of the two batches.  With worker A
first the end state is `endAB`; with worker B first it is `endBA`, in which
`REMOVE_FROM_NET(netX, 2)` was never applied (round 1 is not run, batch 0
has length 1): `netX` still holds its old child in slot 2 and the spatial
index still holds it.  The two end states differ. -/
theorem scenario_depends_on_batch_placement :
    applyUpdates design0 [batchA, batchB] = .ok endAB ∧
      applyUpdates design0 [batchB, batchA] = .ok endBA ∧
      updateDesign scenarioFiles design0 ["a.bin", "b.bin"] = .ok endAB ∧
      updateDesign scenarioFiles design0 ["b.bin", "a.bin"] = .ok endBA ∧
      endAB ≠ endBA ∧
      (endAB.nets.getD 0 default).getPinFig 2 = none ∧
      (endBA.nets.getD 0 default).getPinFig 2 = some (.pathSeg (mkSeg 0 20 0 30)) ∧
      (0, 2) ∈ endBA.regionQuery.drObjs := by
  have hab : ["a.bin", "b.bin"].map scenarioFiles = [batchA, batchB] := by
    simp [scenarioFiles]
  have hba : ["b.bin", "a.bin"].map scenarioFiles = [batchB, batchA] := by
    simp [scenarioFiles]
  refine ⟨rfl, rfl, ?_, ?_, by decide, rfl, rfl, by decide⟩
  · unfold updateDesign
    rw [hab]
    rfl
  · unfold updateDesign
    rw [hba]
    rfl

/-! ## `ADD_GUIDE` -/

/-- A frame of one batch with one mutation: `applyUpdates` does what the
loop body does on that mutation. -/
theorem applyUpdates_singleton (d : frDesign) (update : drUpdate) :
    applyUpdates d [[update]] = applyUpdate d update := by
  rw [applyUpdates_cons]
  have hs : schedule [[update]] = [(0, 0)] := rfl
  rw [hs]
  simp only [List.foldlM_cons, List.foldlM_nil, applyAt, entryAt]
  show (applyUpdate d update >>= fun s => pure s) = applyUpdate d update
  rw [bind_pure]

/-- C4.  An `ADD_GUIDE` mutation with index `idx` on a net with `n` guides
(`applyUpdate` is what `applyUpdates` runs on the mutation; on a frame holding
just this mutation the two coincide): `applyUpdate` raises error 9199 with
the arguments `idx` and `n` exactly when `idx < 0` or `idx ≥ n`; whenever it raises, it is that error and the design at
the throw is the design before the call (no guide was written); otherwise it
returns, the guide at `idx` has the payload as its only route, every other
guide of the net, the net's children, every other net, the markers, the
spatial index, the pending log and the version are unchanged. -/
theorem applyUpdate_ADD_GUIDE_bounds (d : frDesign) (update : drUpdate) (n : Nat) (net : frNet)
    (htype : update.type = .ADD_GUIDE) (hnet : update.net = some n)
    (hget : d.nets[n]? = some net) :
    applyUpdates d [[update]] = applyUpdate d update ∧
    ((∃ s, applyUpdate d update =
          .error (.error 9199 "Guide \x7b\x7d out of range \x7b\x7d"
            [update.orderInOwner, (net.guides.length : Int)], s)) ↔
        (update.orderInOwner < 0 ∨ update.orderInOwner ≥ (net.guides.length : Int))) ∧
      (∀ e s, applyUpdate d update = .error (e, s) →
        e = .error 9199 "Guide \x7b\x7d out of range \x7b\x7d"
            [update.orderInOwner, (net.guides.length : Int)] ∧ s = d) ∧
      (¬ (update.orderInOwner < 0 ∨ update.orderInOwner ≥ (net.guides.length : Int)) →
        ∃ d1 net1, applyUpdate d update = .ok d1 ∧ d1.nets[n]? = some net1 ∧
          net1.guides.length = net.guides.length ∧
          net1.guides[update.orderInOwner.toNat]? = some { routes := [update.pathSeg] } ∧
          (∀ k, k ≠ update.orderInOwner.toNat → net1.guides[k]? = net.guides[k]?) ∧
          net1.pinfigs = net.pinfigs ∧
          (∀ m, m ≠ n → d1.nets[m]? = d.nets[m]?) ∧
          d1.nets.length = d.nets.length ∧
          d1.markers = d.markers ∧ d1.regionQuery = d.regionQuery ∧
          d1.updates = d.updates ∧ d1.version = d.version) := by
  have hn : n < d.nets.length := by
    rcases Nat.lt_or_ge n d.nets.length with h | h
    · exact h
    · rw [List.getElem?_eq_none h] at hget
      cases hget
  by_cases hc : update.orderInOwner < 0 ∨ update.orderInOwner ≥ (net.guides.length : Int)
  · have hval : applyUpdate d update =
        .error (.error 9199 "Guide \x7b\x7d out of range \x7b\x7d"
          [update.orderInOwner, (net.guides.length : Int)], d) := by
      simp only [applyUpdate, htype, frDesign.getNet, hnet, hget]
      rw [if_pos hc]
    refine ⟨applyUpdates_singleton d update, ⟨fun _ => hc, fun _ => ⟨d, hval⟩⟩, ?_,
      fun h => absurd hc h⟩
    intro e s h
    rw [hval] at h
    cases h
    exact ⟨rfl, rfl⟩
  · have hval : applyUpdate d update =
        .ok (d.setNet n { net with
          guides := List.set net.guides update.orderInOwner.toNat ⟨[update.pathSeg]⟩ }) := by
      simp only [applyUpdate, htype, frDesign.getNet, hnet, hget]
      rw [if_neg hc]
    have hidx : update.orderInOwner.toNat < net.guides.length := by omega
    refine ⟨applyUpdates_singleton d update, ⟨?_, fun h => absurd h hc⟩, ?_,
      fun _ => ⟨_, { net with
        guides := List.set net.guides update.orderInOwner.toNat ⟨[update.pathSeg]⟩ },
        hval, ?_⟩⟩
    · rintro ⟨s, hs⟩
      rw [hval] at hs
      cases hs
    · intro e s h
      rw [hval] at h
      cases h
    · refine ⟨?_, ?_, ?_, ?_, rfl, ?_, ?_, rfl, rfl, rfl, rfl⟩
      · simp [frDesign.setNet, hn]
      · simp
      · simp [hidx]
      · intro k hk
        simp [List.getElem?_set, Ne.symm hk]
      · intro m hm
        simp [frDesign.setNet, List.getElem?_set, Ne.symm hm]
      · simp [frDesign.setNet]

/-- C4 at concrete inputs: guide 1 of `netY` (two guides) is replaced and
guide 0 is kept. -/
theorem applyUpdate_ADD_GUIDE_bounds_witness :
    (guideUpdate 1 1).type = .ADD_GUIDE ∧ (guideUpdate 1 1).net = some 1 ∧
      design0.nets[1]? = some netY ∧
      ∃ d1 net1, applyUpdate design0 (guideUpdate 1 1) = .ok d1 ∧ d1.nets[1]? = some net1 ∧
        net1.guides[1]? = some { routes := [segP1] } ∧ net1.guides[0]? = netY.guides[0]? := by
  refine ⟨rfl, rfl, rfl, ?_⟩
  obtain ⟨d1, net1, h1, h2, _, h4, h5, _⟩ :=
    (applyUpdate_ADD_GUIDE_bounds design0 (guideUpdate 1 1) 1 netY rfl rfl rfl).2.2.2
      (by decide)
  exact ⟨d1, net1, h1, h2, h4, h5 0 (by decide)⟩

end Drt

namespace Dst

/-! ## Transport: the write loop and the connection counter -/

/-- The write loop never returns `false`: its counter `trials` stays below
the budget, so the `return false` after the loop is not reached. -/
theorem sendMsgLoop_ret_ne_false (sock : Socket) (trials : Nat) (ht : trials < MAX_TRIALS) :
    ∀ (fuel writes : Nat) (errorMsg : String),
      (sendMsgLoop sock fuel trials writes errorMsg).ret ≠ some false := by
  intro fuel
  induction fuel with
  | zero => intro w e; simp [sendMsgLoop]
  | succ fuel ih =>
    intro w e
    unfold sendMsgLoop
    rw [if_pos ht]
    split
    · simp
    · exact ih _ _

/-- On a socket whose every write fails the write loop does not return: after
any number of steps it is still writing. -/
theorem sendMsgLoop_all_writes_fail (sock : Socket) (trials : Nat) (ht : trials < MAX_TRIALS)
    (hfail : ∀ k, sock.writeError k ≠ none) :
    ∀ (fuel writes : Nat) (errorMsg : String),
      (sendMsgLoop sock fuel trials writes errorMsg).ret = none ∧
        (sendMsgLoop sock fuel trials writes errorMsg).writes = writes + fuel := by
  intro fuel
  induction fuel with
  | zero => intro w e; simp [sendMsgLoop]
  | succ fuel ih =>
    intro w e
    unfold sendMsgLoop
    rw [if_pos ht]
    split
    · rename_i h; exact absurd h (hfail w)
    · obtain ⟨h1, h2⟩ := ih (w + 1) ‹String›
      exact ⟨h1, by rw [h2]; omega⟩

/-- The invariant passes from the next attempt back to this one when this
one connected. -/
theorem ConnectInv.step {JobMessage : Type} {env : Nat → Socket} {start w w1 rd rd1 trials : Nat}
    {r : SendJobResult JobMessage} (ht : trials < MAX_TRIALS)
    (hc : (env start).connectError = none)
    (h : ConnectInv env r (start + 1) w1 rd1 (trials + 1)) :
    ConnectInv env r start w rd trials := by
  obtain ⟨h1, h2, h3, h4⟩ := h
  have hmax : max (trials + 1) MAX_TRIALS ≤ max trials MAX_TRIALS := by
    simp only [max_le_iff]
    exact ⟨le_trans ht (le_max_right _ _), le_max_right _ _⟩
  refine ⟨by omega, by omega, le_trans h3 hmax, ?_⟩
  intro k what hk1 hk2 hk3
  have hne : k ≠ start := by
    rintro rfl
    rw [hc] at hk3
    cases hk3
  obtain ⟨a, b, c, _⟩ := h4 k what (by omega) hk2 hk3
  exact ⟨a, b, c, fun h => absurd h hne⟩

/-- The invariant holds when the call ends within an attempt that connected. -/
theorem ConnectInv.stop {JobMessage : Type} {env : Nat → Socket} {start w rd trials : Nat}
    {r : SendJobResult JobMessage} (ht : trials < MAX_TRIALS)
    (hc : (env start).connectError = none)
    (hconn : r.connects = start + 1) (htr : r.trials = trials + 1) :
    ConnectInv env r start w rd trials := by
  refine ⟨by omega, by omega, ?_, ?_⟩
  · rw [htr]; exact le_trans ht (le_max_right _ _)
  · intro k what hk1 hk2 hk3
    have hk : k = start := by omega
    subst hk
    rw [hc] at hk3
    cases hk3

/-- The loop of `sendJob` keeps `ConnectInv`, for every number of steps. -/
theorem sendJobLoop_inv {JobMessage : Type} (ser : Serializer JobMessage) (env : Nat → Socket) :
    ∀ (fuel trials : Nat) (resultStr : String) (acc : SendJobResult JobMessage),
      ConnectInv env (sendJobLoop ser env fuel trials resultStr acc)
        acc.connects acc.writes acc.reads trials := by
  intro fuel
  induction fuel with
  | zero =>
    intro trials rs acc
    refine ⟨le_refl _, rfl, le_max_left _ _, ?_⟩
    intro k what h1 h2
    simp only [sendJobLoop] at h2
    omega
  | succ fuel ih =>
    intro trials rs acc
    unfold sendJobLoop
    by_cases ht : trials < MAX_TRIALS
    · simp only [if_pos ht]
      cases hc : (env acc.connects).connectError with
      | some what0 =>
        simp only []
        refine ⟨by simp, by simp; omega, le_trans ht (le_max_right _ _), ?_⟩
        intro k what h1 h2 h3
        simp only [] at h2
        have hk : k = acc.connects := by omega
        subst hk
        rw [hc] at h3
        cases h3
        simp
      | none =>
        simp only []
        cases hs : (sendMsg fuel (env acc.connects) rs).ret with
        | none =>
          simp only []
          exact ConnectInv.stop ht hc rfl rfl
        | some b =>
          cases b with
          | false =>
            simp only []
            (apply ConnectInv.step ht hc; exact ih (trials + 1) _ _)
          | true =>
            simp only []
            rcases hr : readMsg (env acc.connects) with ⟨ok, s⟩
            simp only []
            cases ok with
            | false =>
              simp only [Bool.not_false, if_true]
              (apply ConnectInv.step ht hc; exact ih (trials + 1) _ _)
            | true =>
              simp only [Bool.not_true, Bool.false_eq_true, if_false]
              cases hd : ser.read s with
              | none =>
                simp only []
                (apply ConnectInv.step ht hc; exact ih (trials + 1) _ _)
              | some response =>
                simp only []
                exact ConnectInv.stop ht hc rfl rfl
    · simp only [if_neg ht]
      refine ⟨le_refl _, rfl, le_max_left _ _, ?_⟩
      intro k what h1 h2
      simp only [] at h2
      omega

/-- A first write without error makes `sendMsg` return `true` with one write. -/
theorem sendMsg_first_write_ok (sock : Socket) (fuel : Nat) (errorMsg : String)
    (hw : sock.writeError 0 = none) :
    sendMsg (fuel + 1) sock errorMsg = { ret := some true, errorMsg := "", writes := 1 } := by
  simp [sendMsg, sendMsgLoop, MAX_TRIALS, hw]

/-- One attempt that connects, writes and then gives no usable response: the
loop goes on to the next attempt with the string that `readMsg` left. -/
theorem sendJobLoop_attempt_fails {JobMessage : Type} (ser : Serializer JobMessage)
    (env : Nat → Socket) (fuel trials : Nat) (resultStr : String)
    (acc : SendJobResult JobMessage) (ht : trials < MAX_TRIALS)
    (hc : (env acc.connects).connectError = none)
    (hw : (env acc.connects).writeError 0 = none)
    (hr : reply ser (env acc.connects) = none) :
    sendJobLoop ser env (fuel + 2) trials resultStr acc =
      sendJobLoop ser env (fuel + 1) (trials + 1) (readMsg (env acc.connects)).2
        { acc with trials := trials + 1, connects := acc.connects + 1,
                   writes := acc.writes + 1, reads := acc.reads + 1 } := by
  rw [sendJobLoop]
  simp only [if_pos ht, hc, sendMsg_first_write_ok _ _ _ hw]
  unfold reply at hr
  rcases hrm : readMsg (env acc.connects) with ⟨ok, s⟩
  rw [hrm] at hr
  cases ok with
  | false => simp
  | true =>
    simp only [] at hr
    simp [hr]

/-- One attempt that connects, writes and gets a response: the call returns
`true` with the response stored. -/
theorem sendJobLoop_attempt_succeeds {JobMessage : Type} (ser : Serializer JobMessage)
    (env : Nat → Socket) (fuel trials : Nat) (resultStr : String)
    (acc : SendJobResult JobMessage) (response : JobMessage) (ht : trials < MAX_TRIALS)
    (hc : (env acc.connects).connectError = none)
    (hw : (env acc.connects).writeError 0 = none)
    (hr : reply ser (env acc.connects) = some response) :
    sendJobLoop ser env (fuel + 2) trials resultStr acc =
      { acc with ret := some true, result := some response, trials := trials + 1,
                 connects := acc.connects + 1, writes := acc.writes + 1,
                 reads := acc.reads + 1 } := by
  rw [sendJobLoop]
  simp only [if_pos ht, hc, sendMsg_first_write_ok _ _ _ hw]
  unfold reply at hr
  rcases hrm : readMsg (env acc.connects) with ⟨ok, s⟩
  rw [hrm] at hr
  cases ok with
  | false => simp at hr
  | true =>
    simp only [] at hr
    simp [hr]

/-- With the budget used up the call logs warning 14 and returns `false`. -/
theorem sendJobLoop_exhausted {JobMessage : Type} (ser : Serializer JobMessage)
    (env : Nat → Socket) (fuel trials : Nat) (resultStr : String)
    (acc : SendJobResult JobMessage) (ht : ¬ trials < MAX_TRIALS) :
    sendJobLoop ser env (fuel + 1) trials resultStr acc =
      { acc with ret := some false, trials := trials,
                 warnings := acc.warnings ++
                   [(14, if resultStr = "" then "MAX_TRIALS reached" else resultStr)] } := by
  rw [sendJobLoop]
  simp only [if_neg ht]

/-- An attempt that connects to a socket whose every write fails never ends:
whatever the number of steps, the call has not returned, has opened no
further connection, read nothing and logged nothing. -/
theorem sendJobLoop_blocks {JobMessage : Type} (ser : Serializer JobMessage)
    (env : Nat → Socket) (trials : Nat) (resultStr : String)
    (acc : SendJobResult JobMessage) (ht : trials < MAX_TRIALS)
    (hc : (env acc.connects).connectError = none)
    (hw : ∀ k, (env acc.connects).writeError k ≠ none) (fuel : Nat) :
    (sendJobLoop ser env fuel trials resultStr acc).ret = none ∧
      (sendJobLoop ser env fuel trials resultStr acc).connects ≤ acc.connects + 1 ∧
      (sendJobLoop ser env fuel trials resultStr acc).reads = acc.reads ∧
      (sendJobLoop ser env fuel trials resultStr acc).result = acc.result ∧
      (sendJobLoop ser env fuel trials resultStr acc).warnings = acc.warnings := by
  cases fuel with
  | zero => simp [sendJobLoop]
  | succ fuel =>
    rw [sendJobLoop]
    have h := (sendMsgLoop_all_writes_fail (env acc.connects) 0 (by decide) hw fuel 0 resultStr).1
    simp only [if_pos ht, hc, sendMsg, h]
    simp

/-- After `n` attempts that connect, write and give no usable response, an
attempt that gets a response makes the call return `true` with it. -/
theorem sendJobLoop_succeeds_after {JobMessage : Type} (ser : Serializer JobMessage)
    (env : Nat → Socket) (response : JobMessage) (n : Nat) :
    ∀ (fuel trials : Nat) (resultStr : String) (acc : SendJobResult JobMessage),
      trials + n < MAX_TRIALS →
      (∀ k, k < n → (env (acc.connects + k)).connectError = none ∧
        (env (acc.connects + k)).writeError 0 = none ∧
        reply ser (env (acc.connects + k)) = none) →
      (env (acc.connects + n)).connectError = none →
      (env (acc.connects + n)).writeError 0 = none →
      reply ser (env (acc.connects + n)) = some response →
      sendJobLoop ser env (fuel + n + 2) trials resultStr acc =
        { acc with ret := some true, result := some response, trials := trials + n + 1,
                   connects := acc.connects + n + 1, writes := acc.writes + n + 1,
                   reads := acc.reads + n + 1 } := by
  induction n with
  | zero =>
    intro fuel trials rs acc ht _ hc hw hr
    exact sendJobLoop_attempt_succeeds ser env fuel trials rs acc response (by omega) hc hw hr
  | succ n ih =>
    intro fuel trials rs acc ht hfail hc hw hr
    obtain ⟨hc0, hw0, hr0⟩ := hfail 0 (by omega)
    have hfuel : fuel + (n + 1) + 2 = (fuel + n + 1) + 2 := by omega
    rw [hfuel, sendJobLoop_attempt_fails ser env _ trials rs acc (by omega) hc0 hw0 hr0]
    have hshift : ∀ m, acc.connects + 1 + m = acc.connects + (m + 1) := by intro m; omega
    rw [ih fuel (trials + 1) _ _ (by omega)
      (by intro k hk; simp only [hshift]; exact hfail (k + 1) (by omega))
      (by simp only [hshift]; exact hc) (by simp only [hshift]; exact hw)
      (by simp only [hshift]; exact hr)]
    simp only [SendJobResult.mk.injEq, true_and, and_true]
    omega

/-- After `n` attempts that connect, write and give no usable response, with
the budget then used up, the call returns `false` and logs warning 14 with
the last captured string, or the sentinel when that string is empty. -/
theorem sendJobLoop_fails_after {JobMessage : Type} (ser : Serializer JobMessage)
    (env : Nat → Socket) (n : Nat) :
    ∀ (fuel trials : Nat) (resultStr : String) (acc : SendJobResult JobMessage),
      trials + n = MAX_TRIALS →
      (∀ k, k < n → (env (acc.connects + k)).connectError = none ∧
        (env (acc.connects + k)).writeError 0 = none ∧
        reply ser (env (acc.connects + k)) = none) →
      sendJobLoop ser env (fuel + n + 1) trials resultStr acc =
        { acc with ret := some false, trials := MAX_TRIALS,
                   connects := acc.connects + n, writes := acc.writes + n,
                   reads := acc.reads + n,
                   warnings := acc.warnings ++
                     [(14, if lastCaptured env acc.connects n resultStr = ""
                           then "MAX_TRIALS reached"
                           else lastCaptured env acc.connects n resultStr)] } := by
  induction n with
  | zero =>
    intro fuel trials rs acc ht _
    rw [sendJobLoop_exhausted ser env fuel trials rs acc (by omega)]
    simp only [lastCaptured, if_true, Nat.add_zero] at ht ⊢
    rw [ht]
  | succ n ih =>
    intro fuel trials rs acc ht hfail
    obtain ⟨hc0, hw0, hr0⟩ := hfail 0 (by omega)
    have hfuel : fuel + (n + 1) + 1 = (fuel + n) + 2 := by omega
    rw [hfuel, sendJobLoop_attempt_fails ser env _ trials rs acc (by omega) hc0 hw0 hr0]
    have hshift : ∀ m, acc.connects + 1 + m = acc.connects + (m + 1) := by intro m; omega
    rw [ih fuel (trials + 1) _ _ (by omega)
      (by intro k hk; simp only [hshift]; exact hfail (k + 1) (by omega))]
    have hlast : lastCaptured env (acc.connects + 1) n (readMsg (env acc.connects)).2
        = lastCaptured env acc.connects (n + 1) rs := by
      unfold lastCaptured
      cases n with
      | zero => simp
      | succ m =>
        simp only [Nat.add_one_ne_zero, if_false]
        congr 3
        omega
    simp only [hlast, SendJobResult.mk.injEq, true_and, and_true]
    omega

/-- The write loop looks at a socket only through which of its writes fail. -/
theorem sendMsgLoop_congr (s1 s2 : Socket)
    (h : ∀ k, (s1.writeError k).isSome = (s2.writeError k).isSome) :
    ∀ (fuel trials writes : Nat) (e1 e2 : String),
      (sendMsgLoop s1 fuel trials writes e1).ret = (sendMsgLoop s2 fuel trials writes e2).ret ∧
        (sendMsgLoop s1 fuel trials writes e1).writes
          = (sendMsgLoop s2 fuel trials writes e2).writes := by
  intro fuel
  induction fuel with
  | zero => intro t w e1 e2; simp [sendMsgLoop]
  | succ fuel ih =>
    intro t w e1 e2
    rw [sendMsgLoop, sendMsgLoop]
    by_cases ht : t < MAX_TRIALS
    · simp only [if_pos ht]
      have hk := h w
      cases h1 : s1.writeError w <;> cases h2 : s2.writeError w
      · simp
      · rw [h1, h2] at hk; simp at hk
      · rw [h1, h2] at hk; simp at hk
      · simp only []
        exact ih _ _ _ _
    · simp [if_neg ht]

/-- The returned flag, the response and the counters of the loop of `sendJob`
depend on the connections only through `SameAttempt`, and not on the string
held on entry. -/
theorem sendJobLoop_congr {JobMessage : Type} (ser : Serializer JobMessage)
    (env1 env2 : Nat → Socket) (henv : ∀ n, SameAttempt ser (env1 n) (env2 n)) :
    ∀ (fuel trials : Nat) (rs1 rs2 : String) (acc1 acc2 : SendJobResult JobMessage),
      acc1.counters = acc2.counters →
      (sendJobLoop ser env1 fuel trials rs1 acc1).counters
        = (sendJobLoop ser env2 fuel trials rs2 acc2).counters := by
  intro fuel
  induction fuel with
  | zero =>
    intro trials rs1 rs2 acc1 acc2 hacc
    simp only [SendJobResult.counters, Prod.mk.injEq] at hacc
    simp [sendJobLoop, SendJobResult.counters, hacc]
  | succ fuel ih =>
    intro trials rs1 rs2 acc1 acc2 hacc
    obtain ⟨ret1, res1, t1, c1, w1, r1, warn1⟩ := acc1
    obtain ⟨ret2, res2, t2, c2, w2, r2, warn2⟩ := acc2
    simp only [SendJobResult.counters, Prod.mk.injEq] at hacc
    obtain ⟨rfl, rfl, rfl, rfl, rfl, rfl⟩ := hacc
    obtain ⟨hconn, hwrite, hreply⟩ := henv c1
    rw [sendJobLoop, sendJobLoop]
    by_cases ht : trials < MAX_TRIALS
    · simp only [if_pos ht]
      cases h1 : (env1 c1).connectError <;> cases h2 : (env2 c1).connectError
      · simp only []
        obtain ⟨hret, hwr⟩ := sendMsgLoop_congr (env1 c1) (env2 c1) hwrite fuel 0 0 rs1 rs2
        simp only [sendMsg]
        rw [← hret, ← hwr]
        cases hs : (sendMsgLoop (env1 c1) fuel 0 0 rs1).ret with
        | none => simp [SendJobResult.counters]
        | some b =>
          cases b with
          | false =>
            simp only []
            exact ih _ _ _ _ _ rfl
          | true =>
            simp only []
            unfold reply at hreply
            rcases hr1 : readMsg (env1 c1) with ⟨ok1, s1⟩
            rcases hr2 : readMsg (env2 c1) with ⟨ok2, s2⟩
            rw [hr1, hr2] at hreply
            cases ok1 <;> cases ok2 <;> simp only [] at hreply <;>
              simp only [Bool.not_false, Bool.not_true, if_true, Bool.false_eq_true, if_false]
            · exact ih _ _ _ _ _ rfl
            · rw [← hreply]
              exact ih _ _ _ _ _ rfl
            · rw [hreply]
              exact ih _ _ _ _ _ rfl
            · rw [hreply]
              cases ser.read s2 with
              | none => exact ih _ _ _ _ _ rfl
              | some response => simp [SendJobResult.counters]
      · rw [h1, h2] at hconn; simp at hconn
      · rw [h1, h2] at hconn; simp at hconn
      · simp [SendJobResult.counters]
    · simp [if_neg ht, SendJobResult.counters]

/-! ## `Distributed::sendJob` -/

/-- C5.  In every run of `sendJob`, a connection that fails to be established
ends the call at once: if the k-th connection opened (from 0) fails, the call
has returned `false`, that connection is the last one opened, `trials` is
`k + 1` and the last warning is warning 13 with the text of the exception.
In particular, when the message serializes and the first connection is
refused, the call returns `false` after exactly one connection attempt, no
write and no read. -/
theorem sendJob_connect_failure_is_final {JobMessage : Type} (ser : Serializer JobMessage)
    (env : Nat → Socket) (fuel : Nat) (msg : JobMessage) :
    (∀ k what, k < (sendJob ser env fuel msg).connects →
        (env k).connectError = some what →
          (sendJob ser env fuel msg).ret = some false ∧
          (sendJob ser env fuel msg).connects = k + 1 ∧
          (sendJob ser env fuel msg).trials = k + 1 ∧
          (sendJob ser env fuel msg).warnings.getLast? = some (13, what)) ∧
      (∀ what msgStr, ser.write msg = some msgStr → (env 0).connectError = some what →
          (sendJob ser env (fuel + 1) msg).counters = (some false, none, 1, 1, 0, 0) ∧
          (sendJob ser env (fuel + 1) msg).warnings = [(13, what)]) := by
  constructor
  · intro k what hk hfail
    unfold sendJob at hk ⊢
    cases hser : ser.write msg with
    | none =>
      rw [hser] at hk
      simp at hk
    | some msgStr =>
      rw [hser] at hk
      simp only [] at hk ⊢
      obtain ⟨_, h2, _, h4⟩ := sendJobLoop_inv ser env fuel 0 ""
        { ret := none, result := none, trials := 0, connects := 0, writes := 0, reads := 0,
          warnings := [] }
      dsimp only at h2 h4
      obtain ⟨a, b, c, _⟩ := h4 k what (Nat.zero_le _) hk hfail
      exact ⟨a, b, by omega, c⟩
  · intro what msgStr hser hfail
    simp [sendJob, hser, sendJobLoop, MAX_TRIALS, hfail, SendJobResult.counters]

/-- C5 at concrete inputs: after two attempts reset on read the third
connection is refused and the call ends there; a peer that refuses the first
connection is tried once. -/
theorem sendJob_connect_failure_is_final_witness :
    (2 < (sendJob textSerializer envRefusedThird 100 "job").connects ∧
      (envRefusedThird 2).connectError = some "Connection refused" ∧
      (sendJob textSerializer envRefusedThird 100 "job").ret = some false ∧
      (sendJob textSerializer envRefusedThird 100 "job").connects = 3) ∧
    (textSerializer.write "job" = some "job" ∧
      refused.connectError = some "Connection refused" ∧
      (sendJob textSerializer (fun _ => refused) 1 "job").counters
        = (some false, none, 1, 1, 0, 0)) := by
  have h := sendJob_connect_failure_is_final textSerializer envRefusedThird 100 "job"
  have h1 := h.1 2 "Connection refused" (by decide) (by decide)
  have h2 := (sendJob_connect_failure_is_final textSerializer (fun _ => refused) 0 "job").2
    "Connection refused" "job" rfl rfl
  exact ⟨⟨by decide, by decide, h1.1, h1.2.1⟩, rfl, rfl, h2.1⟩

/-- C6.  Four connections whose writes fail, then a working one: whatever the
number of steps, `sendJob` has not returned.  It is still writing on the
first connection: the write loop of `sendMsg` never gives up, so no second
connection is opened and the fifth attempt is never made. -/
theorem sendJob_blocks_on_failing_write (fuel : Nat) :
    (sendJob textSerializer envWriteFailsThenGood fuel "job").ret = none ∧
      (sendJob textSerializer envWriteFailsThenGood fuel "job").connects ≤ 1 ∧
      (sendJob textSerializer envWriteFailsThenGood fuel "job").reads = 0 ∧
      (sendJob textSerializer envWriteFailsThenGood fuel "job").result = none ∧
      (sendJob textSerializer envWriteFailsThenGood (fuel + 2) "job").writes = fuel + 1 := by
  have hb := sendJobLoop_blocks textSerializer envWriteFailsThenGood 0 ""
    { ret := none, result := none, trials := 0, connects := 0, writes := 0, reads := 0,
      warnings := [] } (by decide) rfl (by intro k; simp [envWriteFailsThenGood, brokenPipe]) fuel
  refine ⟨hb.1, hb.2.1, hb.2.2.1, hb.2.2.2.1, ?_⟩
  have hw := (sendMsgLoop_all_writes_fail brokenPipe 0 (by decide)
    (by intro k; simp [brokenPipe]) (fuel + 1) 0 "").2
  have hr := (sendMsgLoop_all_writes_fail brokenPipe 0 (by decide)
    (by intro k; simp [brokenPipe]) (fuel + 1) 0 "").1
  have he : envWriteFailsThenGood 0 = brokenPipe := rfl
  simp only [sendJob, textSerializer]
  rw [sendJobLoop]
  simp only [he, sendMsg, hr, hw]
  simp [MAX_TRIALS, brokenPipe]

/-- Four attempts that connect, complete their write and then fail on the
read, on an empty body or on deserialization, followed by an attempt that
succeeds: with enough steps `sendJob` returns `true` with the fifth
response stored, after five connections. -/
theorem sendJob_succeeds_on_fifth_attempt {JobMessage : Type} (ser : Serializer JobMessage)
    (env : Nat → Socket) (msg response : JobMessage) (msgStr : String) (fuel : Nat)
    (hser : ser.write msg = some msgStr)
    (hfail : ∀ k, k < 4 → (env k).connectError = none ∧ (env k).writeError 0 = none ∧
      reply ser (env k) = none)
    (hc : (env 4).connectError = none) (hw : (env 4).writeError 0 = none)
    (hr : reply ser (env 4) = some response) :
    sendJob ser env (fuel + 6) msg =
      { ret := some true, result := some response, trials := 5, connects := 5, writes := 5,
        reads := 5, warnings := [] } := by
  unfold sendJob
  rw [hser]
  have h := sendJobLoop_succeeds_after ser env response 4 fuel 0 ""
    { ret := none, result := none, trials := 0, connects := 0, writes := 0, reads := 0,
      warnings := [] } (by decide)
    (by intro k hk; simpa using hfail k hk) (by simpa using hc) (by simpa using hw)
    (by simpa using hr)
  simpa using h

/-- Five attempts that connect, complete their write and then fail on the
read, on an empty body or on deserialization: with enough steps `sendJob`
returns `false` after five connections and logs warning 14 once, with the
string left by the fifth attempt, or with the sentinel when that string is
empty; the logged text is never empty. -/
theorem sendJob_fails_after_five_attempts {JobMessage : Type} (ser : Serializer JobMessage)
    (env : Nat → Socket) (msg : JobMessage) (msgStr : String) (fuel : Nat)
    (hser : ser.write msg = some msgStr)
    (hfail : ∀ k, k < 5 → (env k).connectError = none ∧ (env k).writeError 0 = none ∧
      reply ser (env k) = none) :
    sendJob ser env (fuel + 6) msg =
      { ret := some false, result := none, trials := 5, connects := 5, writes := 5,
        reads := 5,
        warnings := [(14, if (readMsg (env 4)).2 = "" then "MAX_TRIALS reached"
                          else (readMsg (env 4)).2)] } ∧
      (if (readMsg (env 4)).2 = "" then "MAX_TRIALS reached" else (readMsg (env 4)).2) ≠ "" := by
  constructor
  · unfold sendJob
    rw [hser]
    have h := sendJobLoop_fails_after ser env 5 fuel 0 ""
      { ret := none, result := none, trials := 0, connects := 0, writes := 0, reads := 0,
        warnings := [] } (by decide)
      (by intro k hk; simpa using hfail k hk)
    simpa [lastCaptured, MAX_TRIALS] using h
  · split
    · decide
    · assumption

/-- C7.  A first attempt that is reset on read, then connections whose writes
all fail: whatever the number of steps, `sendJob` has not returned and has
logged nothing.  The second attempt never ends, so the call neither returns
failure nor reports a diagnostic, and at most two connections are opened. -/
theorem sendJob_reports_nothing_on_failing_write (fuel : Nat) :
    (sendJob textSerializer envResetThenWriteFails fuel "job").ret = none ∧
      (sendJob textSerializer envResetThenWriteFails fuel "job").warnings = [] ∧
      (sendJob textSerializer envResetThenWriteFails fuel "job").connects ≤ 2 := by
  match fuel with
  | 0 => decide
  | 1 => decide
  | fuel + 2 =>
    have h0 : reply textSerializer (envResetThenWriteFails 0) = none := by decide
    have hrun : sendJob textSerializer envResetThenWriteFails (fuel + 2) "job" =
        sendJobLoop textSerializer envResetThenWriteFails (fuel + 2) 0 ""
          { ret := none, result := none, trials := 0, connects := 0, writes := 0, reads := 0,
            warnings := [] } := rfl
    have hstep := sendJobLoop_attempt_fails textSerializer envResetThenWriteFails fuel 0 ""
      { ret := none, result := none, trials := 0, connects := 0, writes := 0, reads := 0,
        warnings := [] } (by decide) rfl rfl h0
    obtain ⟨h1, h2, _, _, h5⟩ := sendJobLoop_blocks textSerializer envResetThenWriteFails 1
      (readMsg (envResetThenWriteFails 0)).2
      { ret := none, result := none, trials := 1, connects := 1, writes := 1, reads := 1,
        warnings := [] } (by decide) rfl
      (by intro k; simp [envResetThenWriteFails, brokenPipe]) (fuel + 1)
    rw [hrun, hstep]
    exact ⟨h1, h5, h2⟩

/-- C8.  In every run of `sendJob`, for every number of steps, at most 5
connections are opened and the number of connections opened equals the
number of attempts started (`trials`).  Replacing, at one attempt, a read
failure by a response that is read but fails to deserialize changes neither
the returned flag, nor the stored response, nor the number of attempts,
connections, writes and reads. -/
theorem sendJob_connection_budget {JobMessage : Type} (ser : Serializer JobMessage)
    (env : Nat → Socket) (fuel : Nat) (msg : JobMessage) :
    (sendJob ser env fuel msg).connects ≤ 5 ∧
      (sendJob ser env fuel msg).connects = (sendJob ser env fuel msg).trials ∧
      (∀ (env2 : Nat → Socket) (k : Nat), (∀ n, n ≠ k → env2 n = env n) →
        (env2 k).connectError = (env k).connectError →
        (env2 k).writeError = (env k).writeError →
        (readMsg (env k)).1 = false →
        (readMsg (env2 k)).1 = true → ser.read (readMsg (env2 k)).2 = none →
        (sendJob ser env2 fuel msg).counters = (sendJob ser env fuel msg).counters) := by
  have hinv := sendJobLoop_inv ser env fuel 0 ""
    { ret := none, result := none, trials := 0, connects := 0, writes := 0, reads := 0,
      warnings := [] }
  obtain ⟨_, h2, h3, _⟩ := hinv
  dsimp only at h2 h3
  have hmax : max 0 MAX_TRIALS = 5 := by decide
  rw [hmax] at h3
  refine ⟨?_, ?_, ?_⟩
  · unfold sendJob
    cases ser.write msg with
    | none => simp
    | some msgStr => simp only []; omega
  · unfold sendJob
    cases ser.write msg with
    | none => simp
    | some msgStr => simp only []; omega
  · intro env2 k hsame hconn hwrite hread1 hread2 hdeser
    have henv : ∀ n, SameAttempt ser (env2 n) (env n) := by
      intro n
      by_cases hn : n = k
      · subst hn
        refine ⟨by rw [hconn], by intro j; rw [hwrite], ?_⟩
        unfold reply
        rcases h1 : readMsg (env n) with ⟨ok1, s1⟩
        rcases h2 : readMsg (env2 n) with ⟨ok2, s2⟩
        rw [h1] at hread1
        rw [h2] at hread2 hdeser
        simp only [] at hread1 hread2 hdeser
        subst hread1 hread2
        simp [hdeser]
      · rw [hsame n hn]
        exact ⟨rfl, fun _ => rfl, rfl⟩
    unfold sendJob
    cases ser.write msg with
    | none => rfl
    | some msgStr => exact sendJobLoop_congr ser env2 env henv fuel 0 "" "" _ _ rfl

/-- C8 at concrete inputs: five attempts reset on read, and the same with an
unusable response at the third attempt, give the same flag and counters. -/
theorem sendJob_connection_budget_witness :
    (readMsg (envAllReset 2)).1 = false ∧ (readMsg (envGarbageThird 2)).1 = true ∧
      textSerializer.read (readMsg (envGarbageThird 2)).2 = none ∧
      (sendJob textSerializer envGarbageThird 10 "job").counters
        = (sendJob textSerializer envAllReset 10 "job").counters ∧
      (sendJob textSerializer envAllReset 10 "job").connects = 5 := by
  refine ⟨by decide, by decide, by decide, ?_, by decide⟩
  refine (sendJob_connection_budget textSerializer envAllReset 10 "job").2.2
    envGarbageThird 2 ?_ rfl rfl (by decide) (by decide) (by decide)
  intro n hn
  simp [envGarbageThird, envAllReset, hn]

end Dst

namespace Dst

/-! ## `readMsg` -/

/-- A string without a zero byte is its own C string. -/
theorem cstr_of_no_nul (buffer : String) (h : NUL ∉ buffer.data) : cstr buffer = buffer := by
  unfold cstr
  have : buffer.data.takeWhile (fun c => decide (c ≠ NUL)) = buffer.data := by
    rw [List.takeWhile_eq_self_iff]
    intro c hc
    simp only [ne_eq, decide_not, Bool.not_eq_eq_eq_not, Bool.not_true, decide_eq_false_iff_not]
    rintro rfl
    exact h hc
  rw [this]

/-- What `readMsg` does: it succeeds exactly when the read ended without
error or at end of file and the buffer, read as a C string, is not empty; the
output is then that C string; another read error gives `false` and the
message of the error. -/
theorem readMsg_spec (sock : Socket) :
    ((readMsg sock).1 = true ↔
        (sock.readError = .success ∨ sock.readError = .eof) ∧ cstr sock.received ≠ "") ∧
      (∀ message, sock.readError = .other message → readMsg sock = (false, message)) ∧
      ((sock.readError = .success ∨ sock.readError = .eof) →
        (readMsg sock).2 = cstr sock.received) := by
  unfold readMsg
  cases h : sock.readError with
  | success =>
    by_cases hd : cstr sock.received = "" <;> simp [hd]
  | eof =>
    by_cases hd : cstr sock.received = "" <;> simp [hd]
  | other message => simp

/-- C9.  A read that ends at end of file with the two bytes `0, 97` in the
buffer: the read ended with EOF and the received body is not empty, yet
`readMsg` returns `false` with an empty output string, because the buffer is
converted as a C string and the conversion stops at the first zero byte. -/
theorem readMsg_fails_on_leading_zero_byte :
    nulFirst.readError = .eof ∧ nulFirst.received ≠ "" ∧ nulFirst.received.length = 2 ∧
      readMsg nulFirst = (false, "") := by
  decide

end Dst

namespace Drt

/-! ## `TritonRoute::sendDesignUpdates` -/

/-- C10.  In distributed mode, with at least one pending mutation group and a
`sendJob` that returns `true`, `sendDesignUpdates` returns, has handed
exactly that one job to `sendJob`, leaves the pending log empty and the
version one greater than before, and changes nothing else of the design or
of the router. -/
theorem sendDesignUpdates_success (send : Dst.JobMessage → Option Bool) (t : TritonRoute)
    (globals_path : String) (hdist : t.distributed = true)
    (hpending : t.design.hasUpdates = true)
    (hsend : send (updatesJob t globals_path) = some true) :
    (sendDesignUpdates send t globals_path).ending = .returned ∧
      (sendDesignUpdates send t globals_path).sent = [updatesJob t globals_path] ∧
      (sendDesignUpdates send t globals_path).state.design.updates = [] ∧
      (sendDesignUpdates send t globals_path).state.design.version = t.design.version + 1 ∧
      (sendDesignUpdates send t globals_path).state =
        { t with design := { t.design with updates := [], version := t.design.version + 1 } } := by
  simp [sendDesignUpdates, hdist, hpending, hsend, frDesign.clearUpdates,
    frDesign.incrementVersion]

/-- C10 at concrete inputs: two pending groups at version 3, a send that
succeeds; afterwards the log is empty and the version is 4. -/
theorem sendDesignUpdates_success_witness :
    router0.distributed = true ∧ router0.design.hasUpdates = true ∧
      (sendDesignUpdates (fun _ => some true) router0 "/vol/DESIGN.globals").state.design.updates
        = [] ∧
      (sendDesignUpdates (fun _ => some true) router0 "/vol/DESIGN.globals").state.design.version
        = 4 := by
  have h := sendDesignUpdates_success (fun _ => some true) router0 "/vol/DESIGN.globals"
    rfl rfl rfl
  exact ⟨rfl, rfl, h.2.2.1, h.2.2.2.1⟩

end Drt

namespace Drt

/-- C11.  In distributed mode with pending mutation groups, when `sendJob`
returns `false` the call of `sendDesignUpdates` ends with the exception of
`logger_->error` (message 304) before `clearUpdates` and `incrementVersion`
are reached: the router after the call is the router before it, so the
pending log is the same and the version is not incremented.  The same holds
when `sendJob` does not return. -/
theorem sendDesignUpdates_failure_keeps_pending (send : Dst.JobMessage → Option Bool)
    (t : TritonRoute) (globals_path : String) :
    (send (updatesJob t globals_path) ≠ some true →
        (sendDesignUpdates send t globals_path).state = t ∧
        (sendDesignUpdates send t globals_path).state.design.updates = t.design.updates ∧
        (sendDesignUpdates send t globals_path).state.design.version = t.design.version) ∧
      (t.distributed = true → t.design.hasUpdates = true →
        send (updatesJob t globals_path) = some false →
          (sendDesignUpdates send t globals_path).ending
            = .threw (.error 304 "Updating design remotely failed" []) ∧
          (sendDesignUpdates send t globals_path).sent = [updatesJob t globals_path]) := by
  constructor
  · intro hsend
    have hstate : (sendDesignUpdates send t globals_path).state = t := by
      unfold sendDesignUpdates
      by_cases hd : t.distributed = true
      · by_cases hu : t.design.hasUpdates = true
        · simp only [hd, hu, Bool.not_true, Bool.false_eq_true, if_false]
          cases hs : send (updatesJob t globals_path) with
          | none => rfl
          | some ok =>
            cases ok with
            | false => rfl
            | true => exact absurd hs hsend
        · simp [hd, hu]
      · simp [hd]
    rw [hstate]
    exact ⟨rfl, rfl, rfl⟩
  · intro hd hu hs
    simp [sendDesignUpdates, hd, hu, hs]

/-- C11 at concrete inputs: two pending groups at version 3 and a send that
fails; afterwards the two groups are still pending and the version is 3. -/
theorem sendDesignUpdates_failure_keeps_pending_witness :
    router0.distributed = true ∧ router0.design.hasUpdates = true ∧
      (sendDesignUpdates (fun _ => some false) router0 "/vol/DESIGN.globals").state.design.updates
        = [batchA, batchB] ∧
      (sendDesignUpdates (fun _ => some false) router0 "/vol/DESIGN.globals").state.design.version
        = 3 ∧
      (sendDesignUpdates (fun _ => some false) router0 "/vol/DESIGN.globals").ending
        = .threw (.error 304 "Updating design remotely failed" []) := by
  have h := sendDesignUpdates_failure_keeps_pending (fun _ => some false) router0
    "/vol/DESIGN.globals"
  have h1 := h.1 (by decide)
  have h2 := h.2 rfl rfl rfl
  exact ⟨rfl, rfl, h1.2.1, h1.2.2, h2.1⟩

end Drt

namespace Dst

/-! ## `Distributed::sendResult` -/

/-- On a socket whose every write fails the loop of `sendResult` does not
return: after any number of steps it is still inside `sendMsg`. -/
theorem sendResultLoop_all_writes_fail (sock : Socket) (hfail : ∀ k, sock.writeError k ≠ none)
    (trials : Nat) (ht : trials < MAX_TRIALS) (fuel writes : Nat) (error : String) :
    (sendResultLoop sock fuel trials writes error).ret = none ∧
      (sendResultLoop sock fuel trials writes error).warnings = [] ∧
      (sendResultLoop sock (fuel + 1) trials writes error).writes = writes + fuel := by
  have h := fun f => sendMsgLoop_all_writes_fail sock 0 (by decide) hfail f writes error
  refine ⟨?_, ?_, ?_⟩
  · cases fuel with
    | zero => rfl
    | succ fuel => rw [sendResultLoop]; simp [ht, (h fuel).1]
  · cases fuel with
    | zero => rfl
    | succ fuel => rw [sendResultLoop]; simp [ht, (h fuel).1]
  · rw [sendResultLoop]
    simp [ht, (h fuel).1, (h fuel).2]

/-- As soon as one write succeeds `sendResult` returns `true`: when write `k`
on the socket is the first without error, the call returns `true` after
`k + 1` writes, given at least `k + 2` steps. -/
theorem sendResult_returns_on_first_good_write {JobMessage : Type}
    (ser : Serializer JobMessage) (sock : Socket) (msg : JobMessage) (msgStr : String)
    (k fuel : Nat) (hser : ser.write msg = some msgStr)
    (hbad : ∀ j, j < k → sock.writeError j ≠ none) (hgood : sock.writeError k = none) :
    sendResult ser sock (fuel + k + 2) msg = { ret := some true, writes := k + 1, warnings := [] } := by
  have hloop : ∀ (n w f : Nat) (e : String), w + n = k →
      sendMsgLoop sock (f + n + 1) 0 w e = { ret := some true, errorMsg := "", writes := k + 1 } := by
    intro n
    induction n with
    | zero =>
      intro w f e hw
      have hwk : w = k := by omega
      subst hwk
      rw [sendMsgLoop]
      simp [MAX_TRIALS, hgood]
    | succ n ih =>
      intro w f e hw
      have hf : f + (n + 1) + 1 = (f + n + 1) + 1 := by omega
      rw [hf, sendMsgLoop]
      cases hwe : sock.writeError w with
      | none => exact absurd hwe (hbad w (by omega))
      | some m =>
        simp only [MAX_TRIALS, Nat.ofNat_pos, if_true]
        exact ih (w + 1) f m (by omega)
  unfold sendResult
  rw [hser]
  have hf : fuel + k + 2 = (fuel + k + 1) + 1 := by omega
  simp only [hf]
  rw [sendResultLoop]
  simp [MAX_TRIALS, hloop k 0 fuel "" (by omega)]

/-- C12.  An accepted connection whose every write fails: whatever the number
of steps, `sendResult` has not returned and has logged nothing, and the
number of writes it has made grows with the number of steps (12 writes after
13 steps, beyond any budget of 5).  Neither `sendResult` nor `sendMsg`
increments its `trials`. -/
theorem sendResult_never_gives_up (fuel : Nat) :
    (sendResult textSerializer brokenPipe fuel "job").ret = none ∧
      (sendResult textSerializer brokenPipe fuel "job").warnings = [] ∧
      (sendResult textSerializer brokenPipe (fuel + 1) "job").writes = fuel ∧
      (sendResult textSerializer brokenPipe 13 "job").writes = 12 := by
  have hfail : ∀ k, brokenPipe.writeError k ≠ none := by intro k; simp [brokenPipe]
  have h := sendResultLoop_all_writes_fail brokenPipe hfail 0 (by decide) fuel 0 ""
  have h12 := sendResultLoop_all_writes_fail brokenPipe hfail 0 (by decide) 12 0 ""
  refine ⟨h.1, h.2.1, ?_, ?_⟩
  · simpa [sendResult, textSerializer] using h.2.2
  · simpa [sendResult, textSerializer] using h12.2.2

end Dst

namespace Drt

/-! ## Per-tag effects of `applyUpdates` -/

/-- A net has a live child in slot `id` exactly when `id` is a valid index
whose slot is filled. -/
theorem getPinFig_eq_some (net : frNet) (id : Int) (fig : frPinFig) :
    net.getPinFig id = some fig ↔ 0 ≤ id ∧ net.pinfigs[id.toNat]? = some (some fig) := by
  unfold frNet.getPinFig
  by_cases hneg : id < 0
  · simp only [if_pos hneg]
    constructor
    · intro h; cases h
    · intro h; omega
  · simp only [if_neg hneg]
    have h0 : 0 ≤ id := by omega
    rw [List.getD_eq_getElem?_getD]
    cases hk : net.pinfigs[id.toNat]? with
    | none => simp
    | some o => simp [h0]

/-- A lookup that finds a net finds it inside the list of nets. -/
theorem lt_length_of_getElem?_eq_some {α : Type} {l : List α} {n : Nat} {a : α}
    (h : l[n]? = some a) : n < l.length := by
  rcases Nat.lt_or_ge n l.length with hlt | hge
  · exact hlt
  · rw [List.getElem?_eq_none hge] at h
    cases h

/-- When the fold over the schedule reaches a mutation that raises, the whole
replay ends with that exception and the design at the throw; the entries
after it are not applied. -/
theorem foldlM_raises {ε σ α : Type} (f : σ → α → Except ε σ) (l1 l2 : List α) (p : α)
    (s s1 : σ) (e : ε) (h1 : l1.foldlM f s = .ok s1) (hp : f s1 p = .error e) :
    (l1 ++ p :: l2).foldlM f s = .error e := by
  rw [List.foldlM_append, h1]
  show (p :: l2).foldlM f s1 = .error e
  rw [List.foldlM_cons, hp]
  rfl


/-- What the three removable kinds share in `applyUpdate`: the child leaves
the spatial index, and leaves the net when the tag is `REMOVE_FROM_NET`. -/
theorem applyUpdate_remove_eq (d : frDesign) (update : drUpdate) (n : Nat) (net : frNet)
    (fig : frPinFig)
    (htype : update.type = .REMOVE_FROM_NET ∨ update.type = .REMOVE_FROM_RQ)
    (hnet : update.net = some n) (hget : d.nets[n]? = some net)
    (hfig : net.getPinFig update.orderInOwner = some fig)
    (hkind : fig.typeId = .frcPathSeg ∨ fig.typeId = .frcPatchWire ∨ fig.typeId = .frcVia) :
    applyUpdate d update =
      .ok (if update.type = .REMOVE_FROM_NET then
          ({ d with regionQuery :=
              d.regionQuery.removeDRObj (n, update.orderInOwner.toNat) }).setNet n
            (net.removePinFig update.orderInOwner.toNat)
        else
          { d with regionQuery :=
              d.regionQuery.removeDRObj (n, update.orderInOwner.toNat) }) := by
  rcases htype with ht | ht
  · cases fig with
    | pathSeg seg => simp [applyUpdate, ht, frDesign.getNet, hnet, hget, hfig]
    | patchWire pw => simp [applyUpdate, ht, frDesign.getNet, hnet, hget, hfig]
    | via v => simp [applyUpdate, ht, frDesign.getNet, hnet, hget, hfig]
    | rect a b => simp [frPinFig.typeId] at hkind
  · cases fig with
    | pathSeg seg => simp [applyUpdate, ht, frDesign.getNet, hnet, hget, hfig]
    | patchWire pw => simp [applyUpdate, ht, frDesign.getNet, hnet, hget, hfig]
    | via v => simp [applyUpdate, ht, frDesign.getNet, hnet, hget, hfig]
    | rect a b => simp [frPinFig.typeId] at hkind

/-- C14.  A `REMOVE_FROM_NET` or `REMOVE_FROM_RQ` mutation whose indexed
child is a path segment, a patch wire or a via: `applyUpdate` returns; the
child is no longer in the spatial index and every other entry of the index
is kept; with `REMOVE_FROM_NET` the net has no child in that slot any more
and keeps every other slot and its guides, and the other nets are unchanged;
with `REMOVE_FROM_RQ` the nets are unchanged.  Markers, pending log and
version are unchanged. -/
theorem applyUpdate_REMOVE (d : frDesign) (update : drUpdate) (n : Nat) (net : frNet)
    (fig : frPinFig)
    (htype : update.type = .REMOVE_FROM_NET ∨ update.type = .REMOVE_FROM_RQ)
    (hnet : update.net = some n) (hget : d.nets[n]? = some net)
    (hfig : net.getPinFig update.orderInOwner = some fig)
    (hkind : fig.typeId = .frcPathSeg ∨ fig.typeId = .frcPatchWire ∨ fig.typeId = .frcVia) :
    ∃ d1, applyUpdate d update = .ok d1 ∧
      (n, update.orderInOwner.toNat) ∉ d1.regionQuery.drObjs ∧
      (∀ r, r ≠ (n, update.orderInOwner.toNat) →
        (r ∈ d1.regionQuery.drObjs ↔ r ∈ d.regionQuery.drObjs)) ∧
      d1.regionQuery.markers = d.regionQuery.markers ∧
      d1.markers = d.markers ∧ d1.updates = d.updates ∧ d1.version = d.version ∧
      (update.type = .REMOVE_FROM_NET →
        ∃ net1, d1.nets[n]? = some net1 ∧ net1.getPinFig update.orderInOwner = none ∧
          (∀ k, k ≠ update.orderInOwner.toNat → net1.pinfigs[k]? = net.pinfigs[k]?) ∧
          net1.pinfigs.length = net.pinfigs.length ∧ net1.guides = net.guides ∧
          (∀ m, m ≠ n → d1.nets[m]? = d.nets[m]?)) ∧
      (update.type = .REMOVE_FROM_RQ → d1.nets = d.nets) := by
  have hval := applyUpdate_remove_eq d update n net fig htype hnet hget hfig hkind
  have hn := lt_length_of_getElem?_eq_some hget
  obtain ⟨h0, hslot⟩ := (getPinFig_eq_some net _ fig).1 hfig
  have hk := lt_length_of_getElem?_eq_some hslot
  refine ⟨_, hval, ?_, ?_, ?_, ?_, ?_, ?_, ?_, ?_⟩
  · split <;> simp [frDesign.setNet, frRegionQuery.removeDRObj]
  · intro r hr
    split <;> simp [frDesign.setNet, frRegionQuery.removeDRObj, hr]
  · split <;> simp [frDesign.setNet, frRegionQuery.removeDRObj]
  · split <;> simp [frDesign.setNet]
  · split <;> simp [frDesign.setNet]
  · split <;> simp [frDesign.setNet]
  · intro ht
    rw [if_pos ht]
    refine ⟨net.removePinFig update.orderInOwner.toNat, ?_, ?_, ?_, ?_, rfl, ?_⟩
    · simp [frDesign.setNet, hn]
    · unfold frNet.getPinFig frNet.removePinFig
      have hneg : ¬ update.orderInOwner < 0 := by omega
      simp [hneg, List.getD_eq_getElem?_getD, hk]
    · intro k hkne
      simp [frNet.removePinFig, List.getElem?_set, Ne.symm hkne]
    · simp [frNet.removePinFig]
    · intro m hm
      simp [frDesign.setNet, List.getElem?_set, Ne.symm hm]
  · intro ht
    have hne : update.type ≠ .REMOVE_FROM_NET := by rw [ht]; decide
    rw [if_neg hne]

/-- C14 at concrete inputs: `REMOVE_FROM_NET(netX, 1)` on `design0` empties
slot 1 of `netX` and takes `(0, 1)` out of the spatial index. -/
theorem applyUpdate_REMOVE_witness :
    (mkUpdate .REMOVE_FROM_NET 0 1 default).type = .REMOVE_FROM_NET ∧
      design0.nets[0]? = some netX ∧
      netX.getPinFig 1 = some (.pathSeg (mkSeg 0 10 0 20)) ∧
      ∃ d1 net1, applyUpdate design0 (mkUpdate .REMOVE_FROM_NET 0 1 default) = .ok d1 ∧
        (0, 1) ∉ d1.regionQuery.drObjs ∧ d1.nets[0]? = some net1 ∧
        net1.getPinFig 1 = none := by
  refine ⟨rfl, rfl, rfl, ?_⟩
  obtain ⟨d1, h1, h2, _, _, _, _, _, h8, _⟩ :=
    applyUpdate_REMOVE design0 (mkUpdate .REMOVE_FROM_NET 0 1 default) 0 netX
      (.pathSeg (mkSeg 0 10 0 20)) (Or.inl rfl) rfl rfl rfl (Or.inl rfl)
  obtain ⟨net1, h9, h10, _⟩ := h8 rfl
  exact ⟨d1, net1, h1, h2, h9, h10⟩


/-- C15.  An `UPDATE_SHAPE` mutation on a net whose slot `idx` holds a child.
When the child is a path segment, `applyUpdate` returns, the child in that
slot is a path segment whose begin point, end point and style are those of
the payload (its layer is kept), it is in the spatial index afterwards, and
every other slot, the guides, the other nets, the other entries of the
spatial index, the markers, the pending log and the version are unchanged.
When the child is of any other kind, `applyUpdate` returns the design
unchanged. -/
theorem applyUpdate_UPDATE_SHAPE (d : frDesign) (update : drUpdate) (n : Nat) (net : frNet)
    (fig : frPinFig) (htype : update.type = .UPDATE_SHAPE)
    (hnet : update.net = some n) (hget : d.nets[n]? = some net)
    (hfig : net.getPinFig update.orderInOwner = some fig) :
    (∀ seg, fig = .pathSeg seg →
        ∃ d1 net1 seg1, applyUpdate d update = .ok d1 ∧ d1.nets[n]? = some net1 ∧
          net1.getPinFig update.orderInOwner = some (.pathSeg seg1) ∧
          seg1.beginPoint = update.pathSeg.beginPoint ∧
          seg1.endPoint = update.pathSeg.endPoint ∧
          seg1.style = update.pathSeg.style ∧ seg1.layer = seg.layer ∧
          (n, update.orderInOwner.toNat) ∈ d1.regionQuery.drObjs ∧
          (∀ r, r ≠ (n, update.orderInOwner.toNat) →
            (r ∈ d1.regionQuery.drObjs ↔ r ∈ d.regionQuery.drObjs)) ∧
          (∀ k, k ≠ update.orderInOwner.toNat → net1.pinfigs[k]? = net.pinfigs[k]?) ∧
          net1.guides = net.guides ∧
          (∀ m, m ≠ n → d1.nets[m]? = d.nets[m]?) ∧
          d1.regionQuery.markers = d.regionQuery.markers ∧
          d1.markers = d.markers ∧ d1.updates = d.updates ∧ d1.version = d.version) ∧
      ((∀ seg, fig ≠ .pathSeg seg) → applyUpdate d update = .ok d) := by
  have hn := lt_length_of_getElem?_eq_some hget
  obtain ⟨h0, hslot⟩ := (getPinFig_eq_some net _ fig).1 hfig
  have hk := lt_length_of_getElem?_eq_some hslot
  constructor
  · intro seg hseg
    subst hseg
    have hval : applyUpdate d update = .ok ⟨List.set d.nets n
        ⟨List.set net.pinfigs update.orderInOwner.toNat
          (some (.pathSeg ⟨update.pathSeg.beginPoint, update.pathSeg.endPoint, seg.layer,
            update.pathSeg.style⟩)), net.guides⟩,
        d.markers, d.regionQuery.addDRObj (n, update.orderInOwner.toNat), d.updates,
        d.version⟩ := by
      simp only [applyUpdate, htype, frDesign.getNet, hnet, hget, hfig]
      rfl
    refine ⟨_, ⟨List.set net.pinfigs update.orderInOwner.toNat
        (some (.pathSeg ⟨update.pathSeg.beginPoint, update.pathSeg.endPoint, seg.layer,
          update.pathSeg.style⟩)), net.guides⟩,
      ⟨update.pathSeg.beginPoint, update.pathSeg.endPoint, seg.layer, update.pathSeg.style⟩,
      hval, ?_, ?_, rfl, rfl, rfl, rfl, ?_⟩
    · simp [frDesign.setNet, hn]
    · rw [getPinFig_eq_some]
      exact ⟨h0, by simp [hk]⟩
    · refine ⟨?_, ?_, ?_, rfl, ?_, ?_, rfl, rfl, rfl⟩
      · simp only [frDesign.setNet, frRegionQuery.addDRObj]
        split
        · assumption
        · simp
      · intro r hr
        simp only [frDesign.setNet, frRegionQuery.addDRObj]
        split
        · rfl
        · simp [hr]
      · intro k hkne
        simp [List.getElem?_set, Ne.symm hkne]
      · intro m hm
        simp [frDesign.setNet, List.getElem?_set, Ne.symm hm]
      · simp only [frDesign.setNet, frRegionQuery.addDRObj]
        split <;> rfl
  · intro hother
    cases fig with
    | pathSeg seg => exact absurd rfl (hother seg)
    | patchWire pw => simp [applyUpdate, htype, frDesign.getNet, hnet, hget, hfig]
    | via v => simp [applyUpdate, htype, frDesign.getNet, hnet, hget, hfig]
    | rect a b => simp [applyUpdate, htype, frDesign.getNet, hnet, hget, hfig]

/-- C15 at concrete inputs: `UPDATE_SHAPE(netY, 1, P2)` on `design0` gives the
child in slot 1 of `netY` the points and style of `P2`; on the via in slot 1
of `netR` the same tag changes nothing. -/
theorem applyUpdate_UPDATE_SHAPE_witness :
    design0.nets[1]? = some netY ∧ netY.getPinFig 1 = some (.pathSeg (mkSeg 7 10 7 20)) ∧
      (∃ d1 net1 seg1, applyUpdate design0 (mkUpdate .UPDATE_SHAPE 1 1 segP2) = .ok d1 ∧
        d1.nets[1]? = some net1 ∧ net1.getPinFig 1 = some (.pathSeg seg1) ∧
        seg1.beginPoint = segP2.beginPoint ∧ seg1.endPoint = segP2.endPoint ∧
        seg1.style = segP2.style ∧ (1, 1) ∈ d1.regionQuery.drObjs) ∧
      applyUpdate designR (mkUpdate .UPDATE_SHAPE 2 1 segP2) = .ok designR := by
  refine ⟨rfl, rfl, ?_, ?_⟩
  · obtain ⟨d1, net1, seg1, h1, h2, h3, h4, h5, h6, _, h8, _⟩ :=
      (applyUpdate_UPDATE_SHAPE design0 (mkUpdate .UPDATE_SHAPE 1 1 segP2) 1 netY
        (.pathSeg (mkSeg 7 10 7 20)) rfl rfl rfl rfl).1 _ rfl
    exact ⟨d1, net1, seg1, h1, h2, h3, h4, h5, h6, h8⟩
  · exact (applyUpdate_UPDATE_SHAPE designR (mkUpdate .UPDATE_SHAPE 2 1 segP2) 2 netR
      (.via { origin := ⟨1, 1⟩, viaDef := 7 }) rfl rfl rfl rfl).2 (by intro seg h; cases h)

/-- C16.  A `REMOVE_FROM_NET` or `REMOVE_FROM_RQ` mutation whose indexed
child has a tag other than path segment, patch wire or via: `applyUpdate`
raises error 9999 with the tag, and the design at the throw is the design
before the mutation (nothing was removed from the net or from the spatial
index).  When the replay of a frame reaches such a mutation at the entry
`p` of its schedule, after the earlier entries `l1` gave the design `d`,
`applyUpdates` ends with that error and the design `d`: none of the later
entries `l2` is applied. -/
theorem applyUpdate_REMOVE_unknown_tag (d : frDesign) (update : drUpdate) (n : Nat)
    (net : frNet) (fig : frPinFig)
    (htype : update.type = .REMOVE_FROM_NET ∨ update.type = .REMOVE_FROM_RQ)
    (hnet : update.net = some n) (hget : d.nets[n]? = some net)
    (hfig : net.getPinFig update.orderInOwner = some fig)
    (hkind : fig.typeId ≠ .frcPathSeg ∧ fig.typeId ≠ .frcPatchWire ∧ fig.typeId ≠ .frcVia) :
    applyUpdate d update =
        .error (.error 9999 "unknown update type \x7b\x7d" [fig.typeId.code], d) ∧
      ∀ (d0 : frDesign) (b0 : List drUpdate) (rest : List (List drUpdate))
        (l1 l2 : List (Nat × Nat)) (p : Nat × Nat),
        schedule (b0 :: rest) = l1 ++ p :: l2 →
        entryAt (b0 :: rest) p = some update →
        l1.foldlM (applyAt (b0 :: rest)) d0 = .ok d →
          applyUpdates d0 (b0 :: rest) =
            .error (.error 9999 "unknown update type \x7b\x7d" [fig.typeId.code], d) := by
  have hval : applyUpdate d update =
      .error (.error 9999 "unknown update type \x7b\x7d" [fig.typeId.code], d) := by
    rcases htype with ht | ht
    · cases fig with
      | pathSeg seg => simp [frPinFig.typeId] at hkind
      | patchWire pw => simp [frPinFig.typeId] at hkind
      | via v => simp [frPinFig.typeId] at hkind
      | rect a b => simp [applyUpdate, ht, frDesign.getNet, hnet, hget, hfig]
    · cases fig with
      | pathSeg seg => simp [frPinFig.typeId] at hkind
      | patchWire pw => simp [frPinFig.typeId] at hkind
      | via v => simp [frPinFig.typeId] at hkind
      | rect a b => simp [applyUpdate, ht, frDesign.getNet, hnet, hget, hfig]
  refine ⟨hval, ?_⟩
  intro d0 b0 rest l1 l2 p hsched hentry hprefix
  rw [applyUpdates_cons, hsched]
  apply foldlM_raises _ l1 l2 p d0 d _ hprefix
  simp only [applyAt, hentry]
  exact hval


/-- C16 at concrete inputs: in `batchUnknownTag` the second mutation meets the
rectangle of `netR`; the replay ends there with error 9999 and the design
reached after the first mutation, and the third mutation is not applied. -/
theorem applyUpdate_REMOVE_unknown_tag_witness :
    designAfterRq.nets[2]? = some netR ∧
      netR.getPinFig 0 = some (.rect ⟨0, 0⟩ ⟨5, 5⟩) ∧
      schedule [batchUnknownTag] = [(0, 0)] ++ (0, 1) :: [(0, 2)] ∧
      [(0, 0)].foldlM (applyAt [batchUnknownTag]) designR = .ok designAfterRq ∧
      applyUpdates designR [batchUnknownTag] =
        .error (.error 9999 "unknown update type \x7b\x7d" [5], designAfterRq) := by
  refine ⟨rfl, rfl, rfl, rfl, ?_⟩
  exact (applyUpdate_REMOVE_unknown_tag designAfterRq (mkUpdate .REMOVE_FROM_NET 2 0 default) 2
    netR (.rect ⟨0, 0⟩ ⟨5, 5⟩) (Or.inl rfl) rfl rfl rfl (by decide)).2
    designR batchUnknownTag [] [(0, 0)] [(0, 2)] (0, 1) rfl rfl rfl

/-- An `ADD_SHAPE` or `ADD_SHAPE_NET_ONLY` mutation tagged path segment,
patch wire or via: the payload becomes a new child in the next free slot of
the net, and that child is put into the spatial index exactly when the tag
is `ADD_SHAPE`. -/
theorem applyUpdate_ADD_SHAPE_net_child (d : frDesign) (update : drUpdate) (n : Nat)
    (net : frNet)
    (htype : update.type = .ADD_SHAPE ∨ update.type = .ADD_SHAPE_NET_ONLY)
    (hnet : update.net = some n) (hget : d.nets[n]? = some net)
    (hkind : update.objTypeId = .frcPathSeg ∨ update.objTypeId = .frcPatchWire ∨
      update.objTypeId = .frcVia) :
    ∃ d1 net1 fig, applyUpdate d update = .ok d1 ∧ d1.nets[n]? = some net1 ∧
      net1.pinfigs = net.pinfigs ++ [some fig] ∧ net1.guides = net.guides ∧
      fig.typeId = update.objTypeId ∧
      (fig = .pathSeg update.pathSeg ∨ fig = .patchWire update.patchWire ∨
        fig = .via update.via) ∧
      d1.markers = d.markers ∧
      d1.regionQuery = (if update.type = .ADD_SHAPE then
        d.regionQuery.addDRObj (n, net.pinfigs.length) else d.regionQuery) := by
  have hn := lt_length_of_getElem?_eq_some hget
  rcases htype with ht | ht <;> rcases hkind with hk | hk | hk
  · refine ⟨⟨List.set d.nets n ⟨net.pinfigs ++ [some (.pathSeg update.pathSeg)], net.guides⟩, d.markers,
        d.regionQuery.addDRObj (n, net.pinfigs.length), d.updates, d.version⟩,
      ⟨net.pinfigs ++ [some (.pathSeg update.pathSeg)], net.guides⟩, .pathSeg update.pathSeg, ?_, ?_, rfl, rfl, ?_,
      Or.inl rfl, rfl, ?_⟩
    · simp only [applyUpdate, ht, hk, frDesign.getNet, hnet, hget]
      simp [frDesign.setNet, frNet.addPinFig]
    · simp [hn]
    · rw [hk]; rfl
    · simp [ht]
  · refine ⟨⟨List.set d.nets n ⟨net.pinfigs ++ [some (.patchWire update.patchWire)], net.guides⟩, d.markers,
        d.regionQuery.addDRObj (n, net.pinfigs.length), d.updates, d.version⟩,
      ⟨net.pinfigs ++ [some (.patchWire update.patchWire)], net.guides⟩, .patchWire update.patchWire, ?_, ?_, rfl, rfl, ?_,
      Or.inr (Or.inl rfl), rfl, ?_⟩
    · simp only [applyUpdate, ht, hk, frDesign.getNet, hnet, hget]
      simp [frDesign.setNet, frNet.addPinFig]
    · simp [hn]
    · rw [hk]; rfl
    · simp [ht]
  · refine ⟨⟨List.set d.nets n ⟨net.pinfigs ++ [some (.via update.via)], net.guides⟩, d.markers,
        d.regionQuery.addDRObj (n, net.pinfigs.length), d.updates, d.version⟩,
      ⟨net.pinfigs ++ [some (.via update.via)], net.guides⟩, .via update.via, ?_, ?_, rfl, rfl, ?_,
      Or.inr (Or.inr rfl), rfl, ?_⟩
    · simp only [applyUpdate, ht, hk, frDesign.getNet, hnet, hget]
      simp [frDesign.setNet, frNet.addPinFig]
    · simp [hn]
    · rw [hk]; rfl
    · simp [ht]
  · refine ⟨⟨List.set d.nets n ⟨net.pinfigs ++ [some (.pathSeg update.pathSeg)], net.guides⟩, d.markers,
        d.regionQuery, d.updates, d.version⟩,
      ⟨net.pinfigs ++ [some (.pathSeg update.pathSeg)], net.guides⟩, .pathSeg update.pathSeg, ?_, ?_, rfl, rfl, ?_,
      Or.inl rfl, rfl, ?_⟩
    · simp only [applyUpdate, ht, hk, frDesign.getNet, hnet, hget]
      simp [frDesign.setNet, frNet.addPinFig]
    · simp [hn]
    · rw [hk]; rfl
    · simp [ht]
  · refine ⟨⟨List.set d.nets n ⟨net.pinfigs ++ [some (.patchWire update.patchWire)], net.guides⟩, d.markers,
        d.regionQuery, d.updates, d.version⟩,
      ⟨net.pinfigs ++ [some (.patchWire update.patchWire)], net.guides⟩, .patchWire update.patchWire, ?_, ?_, rfl, rfl, ?_,
      Or.inr (Or.inl rfl), rfl, ?_⟩
    · simp only [applyUpdate, ht, hk, frDesign.getNet, hnet, hget]
      simp [frDesign.setNet, frNet.addPinFig]
    · simp [hn]
    · rw [hk]; rfl
    · simp [ht]
  · refine ⟨⟨List.set d.nets n ⟨net.pinfigs ++ [some (.via update.via)], net.guides⟩, d.markers,
        d.regionQuery, d.updates, d.version⟩,
      ⟨net.pinfigs ++ [some (.via update.via)], net.guides⟩, .via update.via, ?_, ?_, rfl, rfl, ?_,
      Or.inr (Or.inr rfl), rfl, ?_⟩
    · simp only [applyUpdate, ht, hk, frDesign.getNet, hnet, hget]
      simp [frDesign.setNet, frNet.addPinFig]
    · simp [hn]
    · rw [hk]; rfl
    · simp [ht]

/-- C13.  An `ADD_SHAPE_NET_ONLY` mutation tagged as a marker, on any design:
the marker is attached to the block in the next free slot and is put into
the spatial index all the same, although the tag is not `ADD_SHAPE`.  The
branch that builds a marker calls `regionQuery->addMarker` without the test
on the tag that the three shape branches make. -/
theorem applyUpdate_marker_indexed_under_NET_ONLY (d : frDesign) (marker : frMarker) :
    (markerUpdate .ADD_SHAPE_NET_ONLY marker).type ≠ .ADD_SHAPE ∧
      applyUpdate d (markerUpdate .ADD_SHAPE_NET_ONLY marker) =
        .ok { d with markers := d.markers ++ [some marker]
                     regionQuery := d.regionQuery.addMarker d.markers.length } ∧
      d.markers.length ∈ (d.regionQuery.addMarker d.markers.length).markers ∧
      applyUpdate design0 (markerUpdate .ADD_SHAPE_NET_ONLY marker) =
        .ok { design0 with markers := [some marker]
                           regionQuery := { design0.regionQuery with markers := [0] } } := by
  refine ⟨by simp [markerUpdate], rfl, ?_, rfl⟩
  unfold frRegionQuery.addMarker
  split
  · assumption
  · simp

/-! ## Shared-volume paths: `setSharedVolume`, `sendDesignDist`, `sendDesignUpdates` -/

/-- A volume that is not the empty string is not `empty()`. -/
theorem isEmpty_eq_false_of_ne (vol : String) (h : vol ≠ "") : vol.isEmpty = false := by
  cases hb : vol.isEmpty with
  | false => rfl
  | true => exact absurd ((String.isEmpty_iff vol).1 hb) h

/-- The volume that `setSharedVolume` stores: a non-empty volume followed by
the `/` it lacks, the empty volume as it is. -/
theorem setSharedVolume_shared_volume (t : TritonRoute) (vol : String) :
    (setSharedVolume t vol).shared_volume =
      (if vol = "" then "" else if vol.data.getLast? = some '/' then vol else vol ++ "/") ∧
      (setSharedVolume t vol).distributed = t.distributed ∧
      (setSharedVolume t vol).design = t.design := by
  unfold setSharedVolume
  by_cases hv : vol = ""
  · subst hv
    have he : "".isEmpty = true := by decide
    simp [he]
  · have he := isEmpty_eq_false_of_ne vol hv
    by_cases hs : vol.data.getLast? = some '/'
    · simp [he, hs, hv]
    · simp [he, hs, hv]

/-- C17, as claimed, fails for the empty volume: after `setSharedVolume ""`
the snapshot job carries the bare names `DESIGN.db`, `DESIGN.guide` and
`DESIGN.globals`, not the names behind a `/` separator. -/
theorem snapshot_paths_of_empty_volume :
    (sendDesignDist (fun _ => some true) (setSharedVolume router0 "")).sent =
        [{ jobType := .UPDATE_DESIGN, msgType := .BROADCAST,
           desc := some { designPath := "DESIGN.db", guidePath := "DESIGN.guide",
                          globalsPath := "DESIGN.globals", sharedDir := "", updates := [],
                          designUpdate := false } }] ∧
      conventionPath "" "DESIGN.db" = "/DESIGN.db" ∧
      "DESIGN.db" ≠ conventionPath "" "DESIGN.db" := by
  refine ⟨by decide, by decide, by decide⟩

/-- C17, amended.  For every non-empty volume string given to
`setSharedVolume`, in distributed mode `sendDesignDist` hands exactly one job
to `sendJob`, a `BROADCAST` `UPDATE_DESIGN` job whose design, guide and
globals paths are the volume, one `/` that is added only when the volume
does not already end in `/`, then `DESIGN.db`, `DESIGN.guide` and
`DESIGN.globals`, with no update file and the design-update flag `false`.
This holds whatever `sendJob` answers. -/
theorem snapshot_paths_of_volume (send : Dst.JobMessage → Option Bool) (t : TritonRoute)
    (vol : String) (hvol : vol ≠ "") (hdist : t.distributed = true) :
    ∃ sharedDir,
      (sendDesignDist send (setSharedVolume t vol)).sent =
        [{ jobType := .UPDATE_DESIGN, msgType := .BROADCAST,
           desc := some { designPath := conventionPath vol "DESIGN.db",
                          guidePath := conventionPath vol "DESIGN.guide",
                          globalsPath := conventionPath vol "DESIGN.globals",
                          sharedDir := sharedDir, updates := [],
                          designUpdate := false } }] ∧
      sharedDir = (if vol.data.getLast? = some '/' then vol else vol ++ "/") := by
  obtain ⟨hsv, hd, _⟩ := setSharedVolume_shared_volume t vol
  rw [if_neg hvol] at hsv
  refine ⟨_, ?_, rfl⟩
  have hsent : (sendDesignDist send (setSharedVolume t vol)).sent
      = [snapshotJob (setSharedVolume t vol)] := by
    unfold sendDesignDist
    rw [hd, hdist]
    simp only [if_true]
    cases send (snapshotJob (setSharedVolume t vol)) with
    | none => rfl
    | some ok => cases ok <;> rfl
  rw [hsent]
  unfold snapshotJob conventionPath
  rw [hsv]
  by_cases hs : vol.data.getLast? = some '/'
  · simp [hs]
  · simp [hs, String.append_assoc]

/-- C17, amended, at concrete inputs: the volumes `/mnt/x` and `/mnt/x/` both
give the design path `/mnt/x/DESIGN.db`. -/
theorem snapshot_paths_of_volume_witness :
    "/mnt/x" ≠ "" ∧ router0.distributed = true ∧
      (∃ sharedDir, (sendDesignDist (fun _ => some true) (setSharedVolume router0 "/mnt/x")).sent =
        [{ jobType := .UPDATE_DESIGN, msgType := .BROADCAST,
           desc := some { designPath := "/mnt/x/DESIGN.db", guidePath := "/mnt/x/DESIGN.guide",
                          globalsPath := "/mnt/x/DESIGN.globals", sharedDir := sharedDir,
                          updates := [], designUpdate := false } }]) ∧
      conventionPath "/mnt/x/" "DESIGN.db" = "/mnt/x/DESIGN.db" := by
  refine ⟨by decide, rfl, ?_, by decide⟩
  obtain ⟨sd, h, _⟩ := snapshot_paths_of_volume (fun _ => some true) router0 "/mnt/x"
    (by decide) rfl
  have h1 : conventionPath "/mnt/x" "DESIGN.db" = "/mnt/x/DESIGN.db" := by decide
  have h2 : conventionPath "/mnt/x" "DESIGN.guide" = "/mnt/x/DESIGN.guide" := by decide
  have h3 : conventionPath "/mnt/x" "DESIGN.globals" = "/mnt/x/DESIGN.globals" := by decide
  rw [h1, h2, h3] at h
  exact ⟨sd, h⟩

/-- C18.  In distributed mode with `n ≥ 1` pending per-worker groups,
`sendDesignUpdates` hands exactly one job to `sendJob`, whatever `sendJob`
answers: a `BROADCAST` `UPDATE_DESIGN` job that lists exactly `n` file
paths, the i-th being the shared volume followed by `updates_<i>.bin` for
`i = 0 .. n - 1` in index order, with the design-update flag `true`; group
`i` is the content written to the i-th path. -/
theorem sendDesignUpdates_job (send : Dst.JobMessage → Option Bool) (t : TritonRoute)
    (globals_path : String) (hdist : t.distributed = true)
    (hpending : t.design.hasUpdates = true) :
    ∃ rjd : Dst.RoutingJobDescription,
      (sendDesignUpdates send t globals_path).sent =
        [{ jobType := .UPDATE_DESIGN, msgType := .BROADCAST, desc := some rjd }] ∧
      rjd.updates.length = t.design.updates.length ∧
      (∀ i, i < t.design.updates.length →
        rjd.updates[i]? = some (t.shared_volume ++ "updates_" ++ toString i ++ ".bin")) ∧
      rjd.designUpdate = true ∧ rjd.globalsPath = globals_path ∧
      rjd.sharedDir = t.shared_volume ∧
      (∀ i, i < t.design.updates.length →
        (sendDesignUpdates send t globals_path).files[i]? =
          some (t.shared_volume ++ "updates_" ++ toString i ++ ".bin",
            t.design.updates.getD i [])) := by
  have hsent : (sendDesignUpdates send t globals_path).sent = [updatesJob t globals_path] ∧
      (sendDesignUpdates send t globals_path).files =
        (List.range t.design.updates.length).map
          (fun i => (updatesPath t.shared_volume i, t.design.updates.getD i [])) := by
    unfold sendDesignUpdates
    simp only [hdist, hpending, Bool.not_true, Bool.false_eq_true, if_false]
    cases send (updatesJob t globals_path) with
    | none => exact ⟨rfl, rfl⟩
    | some ok => cases ok <;> exact ⟨rfl, rfl⟩
  refine ⟨_, hsent.1, ?_, ?_, rfl, rfl, rfl, ?_⟩
  · simp
  · intro i hi
    simp [hi, updatesPath]
  · intro i hi
    rw [hsent.2]
    simp [hi, updatesPath]

/-- C18 at concrete inputs: two pending groups on the volume `/vol/` give the
list `/vol/updates_0.bin`, `/vol/updates_1.bin`. -/
theorem sendDesignUpdates_job_witness :
    router0.distributed = true ∧ router0.design.hasUpdates = true ∧
      ∃ rjd : Dst.RoutingJobDescription,
        (sendDesignUpdates (fun _ => some false) router0 "g").sent =
          [{ jobType := .UPDATE_DESIGN, msgType := .BROADCAST, desc := some rjd }] ∧
        rjd.updates[0]? = some "/vol/updates_0.bin" ∧
        rjd.updates[1]? = some "/vol/updates_1.bin" ∧ rjd.updates.length = 2 ∧
        rjd.designUpdate = true := by
  refine ⟨rfl, rfl, ?_⟩
  obtain ⟨rjd, h1, h2, h3, h4, _⟩ :=
    sendDesignUpdates_job (fun _ => some false) router0 "g" rfl rfl
  exact ⟨rjd, h1, h3 0 (by decide), h3 1 (by decide), h2, h4⟩

/-! ## The buffer of worker results -/

/-- The buffer after a sequence of appends: what it held, followed by the
appended lists in call order; the published size is its length when it was
so before. -/
theorem addAll_workers_results (calls : List (List (Int × String))) :
    ∀ b : ResultsBuffer,
      (addAll b calls).workers_results = b.workers_results ++ calls.flatten ∧
        (b.results_sz = b.workers_results.length →
          (addAll b calls).results_sz = (addAll b calls).workers_results.length) := by
  induction calls with
  | nil => intro b; simp [addAll]
  | cons c cs ih =>
    intro b
    obtain ⟨h1, h2⟩ := ih (addWorkerResults b c)
    have hstep : addAll b (c :: cs) = addAll (addWorkerResults b c) cs := rfl
    rw [hstep, h1]
    refine ⟨by simp [addWorkerResults], fun _ => ?_⟩
    rw [← h1]
    exact h2 rfl

/-- C19.  Starting from a drained buffer, after any sequence of
`addWorkerResults` calls: when the appended lists together are not empty,
`getWorkerResults` returns `true`, the caller's list becomes exactly their
concatenation in call order, and the buffer is left empty with size 0; when
nothing was appended it returns `false`, leaves the caller's list as it was
and the buffer empty.  Before the drain the published size is the number of
results appended. -/
theorem getWorkerResults_drains (calls : List (List (Int × String)))
    (results : List (Int × String)) :
    getWorkerResultsSize (addAll { workers_results := [], results_sz := 0 } calls)
        = calls.flatten.length ∧
      (calls.flatten ≠ [] →
        getWorkerResults (addAll { workers_results := [], results_sz := 0 } calls) results
          = (true, calls.flatten, { workers_results := [], results_sz := 0 }) ∧
        getWorkerResultsSize
          (getWorkerResults (addAll { workers_results := [], results_sz := 0 } calls)
            results).2.2 = 0) ∧
      (calls.flatten = [] →
        getWorkerResults (addAll { workers_results := [], results_sz := 0 } calls) results
          = (false, results, { workers_results := [], results_sz := 0 })) := by
  obtain ⟨h1, h2⟩ := addAll_workers_results calls { workers_results := [], results_sz := 0 }
  have h2 := h2 rfl
  simp only [List.nil_append] at h1
  refine ⟨?_, ?_, ?_⟩
  · unfold getWorkerResultsSize
    rw [h2, h1]
  · intro hne
    have hval : getWorkerResults (addAll { workers_results := [], results_sz := 0 } calls) results
        = (true, calls.flatten, { workers_results := [], results_sz := 0 }) := by
      unfold getWorkerResults
      rw [h1]
      simp [hne]
    rw [hval]
    exact ⟨rfl, rfl⟩
  · intro he
    have hb : addAll { workers_results := [], results_sz := 0 } calls
        = { workers_results := [], results_sz := 0 } := by
      have hsz : (addAll { workers_results := [], results_sz := 0 } calls).results_sz = 0 := by
        rw [h2, h1, he]; rfl
      rw [he] at h1
      cases hx : addAll { workers_results := [], results_sz := 0 } calls with
      | mk wr sz =>
        rw [hx] at h1 hsz
        simp only at h1 hsz
        rw [h1, hsz]
    rw [hb]
    rfl

/-- C19 at concrete inputs: two appends of one and two results are drained as
the three results in append order; a drain with nothing appended returns
`false` and keeps the caller's list. -/
theorem getWorkerResults_drains_witness :
    [[(1, "a")], [(2, "b"), (3, "c")]].flatten ≠ ([] : List (Int × String)) ∧
      getWorkerResults
          (addAll { workers_results := [], results_sz := 0 } [[(1, "a")], [(2, "b"), (3, "c")]])
          [(9, "old")]
        = (true, [(1, "a"), (2, "b"), (3, "c")], { workers_results := [], results_sz := 0 }) ∧
      getWorkerResults (addAll { workers_results := [], results_sz := 0 } [[], []]) [(9, "old")]
        = (false, [(9, "old")], { workers_results := [], results_sz := 0 }) := by
  have h := getWorkerResults_drains [[(1, "a")], [(2, "b"), (3, "c")]] [(9, "old")]
  have h0 := getWorkerResults_drains [[], []] [(9, "old")]
  exact ⟨by decide, (h.2.1 (by decide)).1, h0.2.2 rfl⟩

end Drt

namespace Dst

/-! ## Worker broker: the priority queue under `CompareWorker` -/

/-- `CompareWorker` is the strict order of the priorities. -/
theorem CompareWorker_eq_true (a b : worker) :
    CompareWorker a b = true ↔ a.priority_ < b.priority_ := by
  simp [CompareWorker]

/-- `CompareWorker a b` is `false` exactly when `b` has no greater priority. -/
theorem CompareWorker_eq_false (a b : worker) :
    CompareWorker a b = false ↔ b.priority_ ≤ a.priority_ := by
  simp [CompareWorker]

/-- In a heap for `CompareWorker` no element has a greater priority than the
front element. -/
theorem le_front_of_is_heap (cs : List worker) (hheap : is_heap cs) (t : worker)
    (ht : cs[0]? = some t) :
    ∀ (i : Nat) (b : worker), cs[i]? = some b → b.priority_ ≤ t.priority_ := by
  intro i
  induction i using Nat.strong_induction_on with
  | _ i ih =>
    intro b hb
    rcases Nat.eq_zero_or_pos i with h0 | hpos
    · subst h0
      rw [ht] at hb
      cases hb
      exact le_refl _
    · have hi : i < cs.length := by
        rcases Nat.lt_or_ge i cs.length with h | h
        · exact h
        · rw [List.getElem?_eq_none h] at hb; cases hb
      have hp : (i - 1) / 2 < i := by omega
      have hpl : (i - 1) / 2 < cs.length := by omega
      have ha : cs[(i - 1) / 2]? = some cs[(i - 1) / 2] := List.getElem?_eq_getElem hpl
      have h1 := (CompareWorker_eq_false _ _).1 (hheap i _ b hpos hb ha)
      exact le_trans h1 (ih _ hp _ ha)

/-- Moving the element at `p` into the hole at `h` and the value into `p`
holds the same elements as storing the value in the hole. -/
theorem set_set_perm (cs : List worker) (h p : Nat) (x v : worker) (hne : p ≠ h)
    (hh : h < cs.length) (hx : cs[p]? = some x) :
    ((cs.set h x).set p v).Perm (cs.set h v) := by
  have hp : p < cs.length := by
    rcases Nat.lt_or_ge p cs.length with hlt | hge
    · exact hlt
    · rw [List.getElem?_eq_none hge] at hx; cases hx
  have hxe : cs[p] = x := by
    rw [List.getElem?_eq_getElem hp] at hx
    exact Option.some.inj hx
  rw [List.perm_iff_count]
  intro b
  rw [List.count_set _ _ _ _ (by simpa using hp), List.count_set _ _ _ _ hh,
    List.count_set _ _ _ _ hh]
  have hp1 : p < (cs.set h x).length := by simpa using hp
  have hget : (cs.set h x)[p] = x := by
    rw [List.getElem_set]
    simp [Ne.symm hne, hxe]
  rw [hget]
  generalize List.count b cs = cnt
  generalize (if (cs[h] == b) = true then 1 else 0) = u
  generalize (if (x == b) = true then 1 else 0) = y
  generalize (if (v == b) = true then 1 else 0) = z
  omega

/-- Reading a container after a store into a valid slot. -/
theorem getElem?_set_hole (cs : List worker) (h j : Nat) (x : worker) (hh : h < cs.length) :
    (cs.set h x)[j]? = if j = h then some x else cs[j]? := by
  rw [List.getElem?_set]
  by_cases hj : j = h
  · subst hj
    simp [hh]
  · simp [hj, Ne.symm hj]

/-- The loop of `std::push_heap`, entered with `HoleInv`, leaves a heap of the
same length that holds the elements of the container with the value in the
hole. -/
theorem push_heap_loop_spec (v : worker) :
    ∀ (h : Nat) (cs : List worker), h < cs.length → HoleInv cs h v →
      is_heap (push_heap_loop cs h v) ∧ (push_heap_loop cs h v).length = cs.length ∧
        (push_heap_loop cs h v).Perm (cs.set h v) := by
  intro h
  induction h using Nat.strong_induction_on with
  | _ h ih =>
    intro cs hlen hinv
    obtain ⟨hA, hB, hC⟩ := hinv
    rw [push_heap_loop]
    by_cases hcond : 0 < h ∧ CompareWorker (cs.getD ((h - 1) / 2) v) v = true
    · rw [dif_pos hcond]
      obtain ⟨hpos, hcmp⟩ := hcond
      have hp : (h - 1) / 2 < h := by omega
      have hpl : (h - 1) / 2 < cs.length := by omega
      have hx : cs[(h - 1) / 2]? = some (cs.getD ((h - 1) / 2) v) := by
        rw [List.getD_eq_getElem?_getD, List.getElem?_eq_getElem hpl]
        rfl
      generalize cs.getD ((h - 1) / 2) v = x at hx hcmp ⊢
      have hxv : x.priority_ < v.priority_ := (CompareWorker_eq_true _ _).1 hcmp
      have hinv1 : HoleInv (cs.set h x) ((h - 1) / 2) v := by
        refine ⟨?_, ?_, ?_⟩
        · intro j a b hj hjp hjpp hb ha
          rw [getElem?_set_hole _ _ _ _ hlen] at hb ha
          by_cases hjh : j = h
          · exact absurd (by rw [hjh]) hjpp
          · rw [if_neg hjh] at hb
            by_cases hph : (j - 1) / 2 = h
            · rw [if_pos hph] at ha
              cases ha
              exact hC j _ b hj hph hpos hb hx
            · rw [if_neg hph] at ha
              exact hA j a b hj hjh hph hb ha
        · intro j b hj hjp hb
          rw [getElem?_set_hole _ _ _ _ hlen] at hb
          by_cases hjh : j = h
          · rw [if_pos hjh] at hb
            cases hb
            exact le_of_lt hxv
          · rw [if_neg hjh] at hb
            have h1 := hA j x b hj hjh (by omega) hb (by rw [hjp]; exact hx)
            omega
        · intro j a b hj hjp hppos hb ha
          rw [getElem?_set_hole _ _ _ _ hlen] at hb ha
          have hne : ((h - 1) / 2 - 1) / 2 ≠ h := by omega
          rw [if_neg hne] at ha
          have hxa : x.priority_ ≤ a.priority_ :=
            hA ((h - 1) / 2) a x hppos (by omega) hne hx ha
          by_cases hjh : j = h
          · rw [if_pos hjh] at hb
            cases hb
            exact hxa
          · rw [if_neg hjh] at hb
            have h1 := hA j x b hj hjh (by omega) hb (by rw [hjp]; exact hx)
            omega
      obtain ⟨h1, h2, h3⟩ := ih _ hp (cs.set h x) (by simpa using hpl) hinv1
      refine ⟨h1, by simpa using h2, h3.trans ?_⟩
      exact set_set_perm cs h _ x v (by omega) hlen hx
    · rw [dif_neg hcond]
      refine ⟨?_, by simp, List.Perm.refl _⟩
      intro j a b hj hb ha
      rw [CompareWorker_eq_false]
      rw [getElem?_set_hole _ _ _ _ hlen] at hb ha
      by_cases hjh : j = h
      · rw [if_pos hjh] at hb
        cases hb
        have hne : (j - 1) / 2 ≠ h := by omega
        rw [if_neg hne] at ha
        rw [hjh] at ha hj
        have hget : cs.getD ((h - 1) / 2) v = a := by
          rw [List.getD_eq_getElem?_getD, ha]
          rfl
        rw [hget] at hcond
        have hf : ¬ CompareWorker a v = true := fun hc => hcond ⟨hj, hc⟩
        have := (CompareWorker_eq_true a v).not.1 hf
        omega
      · rw [if_neg hjh] at hb
        by_cases hph : (j - 1) / 2 = h
        · rw [if_pos hph] at ha
          cases ha
          exact hB j b hj hph hb
        · rw [if_neg hph] at ha
          exact hA j a b hj hjh hph hb ha


/-- `std::priority_queue::push` on a heap leaves a heap that holds the pushed
element and the elements held before. -/
theorem priority_queue_push_spec (cs : List worker) (x : worker) (hheap : is_heap cs) :
    is_heap (priority_queue_push cs x) ∧ (priority_queue_push cs x).Perm (cs ++ [x]) := by
  have hinv : HoleInv (cs ++ [x]) cs.length x := by
    refine ⟨?_, ?_, ?_⟩
    · intro j a b hj hjn hpn hb ha
      have hjl : j < cs.length := by
        rcases Nat.lt_or_ge j (cs ++ [x]).length with h | h
        · simp at h; omega
        · rw [List.getElem?_eq_none h] at hb; cases hb
      have hpl : (j - 1) / 2 < cs.length := by omega
      rw [List.getElem?_append_left hjl] at hb
      rw [List.getElem?_append_left hpl] at ha
      exact (CompareWorker_eq_false _ _).1 (hheap j a b hj hb ha)
    · intro j b hj hjp hb
      have hjl : (cs ++ [x]).length ≤ j := by simp; omega
      rw [List.getElem?_eq_none hjl] at hb
      cases hb
    · intro j a b hj hjp _ hb _
      have hjl : (cs ++ [x]).length ≤ j := by simp; omega
      rw [List.getElem?_eq_none hjl] at hb
      cases hb
  obtain ⟨h1, _, h3⟩ := push_heap_loop_spec x cs.length (cs ++ [x]) (by simp) hinv
  refine ⟨h1, ?_⟩
  have hset : (cs ++ [x]).set cs.length x = cs ++ [x] := by
    apply List.ext_getElem?
    intro j
    rw [getElem?_set_hole _ _ _ _ (by simp)]
    by_cases hj : j = cs.length
    · subst hj
      simp
    · rw [if_neg hj]
  rw [hset] at h3
  exact h3

/-- Registering workers one after the other on a heap leaves a heap that
holds the workers held before and the registered ones. -/
theorem foldl_addWorker_spec (ws : List worker) :
    ∀ q : List worker, is_heap q →
      is_heap (ws.foldl (fun q w => addWorker q w.ip_ w.port_ w.priority_) q) ∧
        (ws.foldl (fun q w => addWorker q w.ip_ w.port_ w.priority_) q).Perm (q ++ ws) := by
  induction ws with
  | nil => intro q hq; simpa using hq
  | cons w ws ih =>
    intro q hq
    obtain ⟨h1, h2⟩ := priority_queue_push_spec q w hq
    have hw : addWorker q w.ip_ w.port_ w.priority_ = priority_queue_push q w := rfl
    obtain ⟨h3, h4⟩ := ih (priority_queue_push q w) h1
    rw [List.foldl_cons, hw]
    refine ⟨h3, h4.trans ?_⟩
    have : q ++ w :: ws = (q ++ [w]) ++ ws := by simp
    rw [this]
    exact List.Perm.append_right ws h2

/-- C20.  For every non-empty list of workers registered on an empty broker
queue, the queue is a heap for `CompareWorker` that holds exactly the
registered workers, and the worker at its top is a registered worker that
`CompareWorker` puts below no worker of the queue: its priority is greater
than or equal to the priority of every worker in the queue.  `CompareWorker`
is a strict weak ordering: irreflexive, transitive, and with transitive
incomparability. -/
theorem top_has_greatest_priority (ws : List worker) (hne : ws ≠ []) :
    (∃ t, priority_queue_top (registerAll ws) = some t ∧ t ∈ ws ∧
        (∀ w, w ∈ registerAll ws → CompareWorker t w = false) ∧
        (∀ w, w ∈ ws → w.priority_ ≤ t.priority_)) ∧
      (registerAll ws).Perm ws ∧ is_heap (registerAll ws) ∧
      (∀ a, CompareWorker a a = false) ∧
      (∀ a b c, CompareWorker a b = true → CompareWorker b c = true →
        CompareWorker a c = true) ∧
      (∀ a b c, CompareWorker a b = false → CompareWorker b a = false →
        CompareWorker b c = false → CompareWorker c b = false →
        CompareWorker a c = false ∧ CompareWorker c a = false) := by
  have hempty : is_heap [] := by
    intro i a b _ hb
    simp at hb
  obtain ⟨hheap, hperm⟩ := foldl_addWorker_spec ws [] hempty
  simp only [List.nil_append] at hperm
  have hq : registerAll ws = ws.foldl (fun q w => addWorker q w.ip_ w.port_ w.priority_) [] :=
    rfl
  rw [← hq] at hheap hperm
  refine ⟨?_, hperm, hheap, ?_, ?_, ?_⟩
  · cases hreg : registerAll ws with
    | nil =>
      rw [hreg] at hperm
      exact absurd (List.Perm.nil_eq hperm).symm hne
    | cons t rest =>
      have ht : (registerAll ws)[0]? = some t := by rw [hreg]; simp
      have hmax : ∀ w, w ∈ registerAll ws → w.priority_ ≤ t.priority_ := by
        intro w hw
        obtain ⟨i, hi⟩ := List.getElem?_of_mem hw
        exact le_front_of_is_heap _ hheap t ht i w hi
      refine ⟨t, rfl, ?_, ?_, ?_⟩
      · exact hperm.subset (by rw [hreg]; exact List.mem_cons_self _ _)
      · intro w hw
        rw [CompareWorker_eq_false]
        exact hmax w (by rw [hreg]; exact hw)
      · intro w hw
        exact hmax w (hperm.symm.subset hw)
  · intro a
    simp [CompareWorker]
  · intro a b c hab hbc
    simp only [CompareWorker_eq_true] at *
    omega
  · intro a b c h1 h2 h3 h4
    simp only [CompareWorker_eq_false] at *
    omega

/-- C20 at concrete inputs: of the three workers with priorities 3, 10 and 7
the one with priority 10 is at the top. -/
theorem top_has_greatest_priority_witness :
    threeWorkers ≠ [] ∧
      ∃ t, priority_queue_top (registerAll threeWorkers) = some t ∧ t ∈ threeWorkers ∧
        t.priority_ = 10 := by
  refine ⟨by decide, ?_⟩
  obtain ⟨⟨t, h1, h2, _, h4⟩, _⟩ := top_has_greatest_priority threeWorkers (by decide)
  refine ⟨t, h1, h2, ?_⟩
  have h10 := h4 { ip_ := "10.0.0.2", port_ := 1112, priority_ := 10 } (by decide)
  have hle : t.priority_ ≤ 10 := by
    have hmem := h2
    simp only [threeWorkers, List.mem_cons, List.mem_singleton, List.not_mem_nil, or_false]
      at hmem
    rcases hmem with rfl | rfl | rfl <;> decide
  simp only at h10
  omega

/-! ## `readMsg`: the message returned -/

/-- For a read that ends without error or at end of file with a body that
holds no zero byte and is not empty, `readMsg` returns `true` and the body
itself. -/
theorem readMsg_whole_message_without_nul (sock : Socket)
    (hread : sock.readError = .success ∨ sock.readError = .eof)
    (hnul : NUL ∉ sock.received.data) (hne : sock.received ≠ "") :
    readMsg sock = (true, sock.received) := by
  have hc := cstr_of_no_nul sock.received hnul
  unfold readMsg
  rcases hread with h | h <;> simp [h, hc, hne]

/-- C22.  A read that ends at end of file after the peer sent the five bytes
`97, 98, 0, 99, 100`: `readMsg` returns `true`, but the string it outputs is
the two bytes before the zero byte, not the five bytes received.  The buffer
is converted through `const char*`, which stops at the first zero byte. -/
theorem readMsg_truncates_at_zero_byte :
    nulInside.readError = .eof ∧ nulInside.received.length = 5 ∧
      readMsg nulInside = (true, String.mk [Char.ofNat 97, Char.ofNat 98]) ∧
      (readMsg nulInside).2.length = 2 ∧ (readMsg nulInside).2 ≠ nulInside.received := by
  decide

end Dst

namespace Drt

/-! ## The empty frame -/

/-- C24.  On a frame with zero batches `applyUpdates` starts by reading
`updates[0].size()`, an element outside the empty vector: the call does not
complete, it ends in that undefined read, and `updateDesign` with an empty
list of update files ends in the same read, whatever the files hold. -/
theorem applyUpdates_empty_frame_reads_out_of_range (d : frDesign)
    (fs : String → List drUpdate) :
    applyUpdates d [] = .error (.undefined "updates[0] of an empty vector", d) ∧
      updateDesign fs d [] = .error (.undefined "updates[0] of an empty vector", d) ∧
      applyUpdates d [] ≠ .ok d := by
  refine ⟨rfl, rfl, ?_⟩
  intro h
  cases h

/-! ## `sendDesignUpdates`: the early returns -/

/-- C25.  When distributed mode is off, or when the design has no pending
updates, `sendDesignUpdates` returns at once: no job is handed to `sendJob`,
no file is written, and the router, so the version and the pending log, is
unchanged. -/
theorem sendDesignUpdates_nothing_to_send (send : Dst.JobMessage → Option Bool)
    (t : TritonRoute) (globals_path : String)
    (h : t.distributed = false ∨ t.design.hasUpdates = false) :
    sendDesignUpdates send t globals_path =
        { state := t, files := [], sent := [], ending := .returned } ∧
      (sendDesignUpdates send t globals_path).sent = [] ∧
      (sendDesignUpdates send t globals_path).state.design.version = t.design.version ∧
      (sendDesignUpdates send t globals_path).state.design.updates = t.design.updates := by
  have hval : sendDesignUpdates send t globals_path =
      { state := t, files := [], sent := [], ending := .returned } := by
    unfold sendDesignUpdates
    rcases h with h | h
    · simp [h]
    · by_cases hd : t.distributed = true <;> simp [hd, h]
  rw [hval]
  exact ⟨rfl, rfl, rfl, rfl⟩

/-- C25 at concrete inputs: with distributed mode off and two pending groups,
and in distributed mode with no pending group, nothing is sent and version 3
stays. -/
theorem sendDesignUpdates_nothing_to_send_witness :
    routerLocal.distributed = false ∧ routerIdle.design.hasUpdates = false ∧
      (sendDesignUpdates (fun _ => some true) routerLocal "g").sent = [] ∧
      (sendDesignUpdates (fun _ => some true) routerLocal "g").state.design.updates
        = [batchA, batchB] ∧
      (sendDesignUpdates (fun _ => some true) routerIdle "g").sent = [] ∧
      (sendDesignUpdates (fun _ => some true) routerIdle "g").state.design.version = 3 := by
  have h1 := sendDesignUpdates_nothing_to_send (fun _ => some true) routerLocal "g"
    (Or.inl rfl)
  have h2 := sendDesignUpdates_nothing_to_send (fun _ => some true) routerIdle "g"
    (Or.inr rfl)
  exact ⟨rfl, rfl, h1.2.1, h1.2.2.2, h2.2.1, h2.2.2.1⟩

/-! ## Update file names are distinct -/

/-- The decimal digit characters give back their digit. -/
theorem digitChar_toNat (k : Nat) (hk : k < 10) : (Nat.digitChar k).toNat - 48 = k := by
  interval_cases k <;> rfl

/-- Reading the digits that `Nat.toDigitsCore` puts in front of `ds` gives
the number back. -/
theorem foldl_toDigitsCore (fuel : Nat) :
    ∀ (n : Nat) (ds : List Char), n < fuel →
      (Nat.toDigitsCore 10 fuel n ds).foldl (fun a ch => 10 * a + (ch.toNat - 48)) 0
        = ds.foldl (fun a ch => 10 * a + (ch.toNat - 48)) n := by
  induction fuel with
  | zero => intro n ds h; omega
  | succ fuel ih =>
    intro n ds hn
    unfold Nat.toDigitsCore
    have hd := digitChar_toNat (n % 10) (Nat.mod_lt _ (by decide))
    by_cases h0 : n / 10 = 0
    · simp only [h0, if_true, List.foldl_cons, Nat.mul_zero, Nat.zero_add, hd]
      have : n % 10 = n := by omega
      rw [this]
    · simp only [h0, if_false]
      rw [ih (n / 10) _ (by omega)]
      simp only [List.foldl_cons, hd]
      have : 10 * (n / 10) + n % 10 = n := by omega
      rw [this]

/-- The decimal text of a number determines the number. -/
theorem toString_nat_injective (i j : Nat) (h : toString i = toString j) : i = j := by
  have hi := foldl_toDigitsCore (i + 1) i [] (by omega)
  have hj := foldl_toDigitsCore (j + 1) j [] (by omega)
  have hd : Nat.toDigits 10 i = Nat.toDigits 10 j := by
    have h1 : (toString i).data = (toString j).data := by rw [h]
    exact h1
  unfold Nat.toDigits at hd
  rw [hd] at hi
  simp only [List.foldl_nil] at hi hj
  omega

/-- C23.  For every shared volume and every two group indices `i ≠ j`, the
file names that `sendDesignUpdates` builds for group `i` and group `j` are
different strings; so the files it writes for distinct groups of a pending
log have distinct paths. -/
theorem updatesPath_injective (shared_volume : String) (i j : Nat) :
    (i ≠ j → updatesPath shared_volume i ≠ updatesPath shared_volume j) ∧
      ∀ (send : Dst.JobMessage → Option Bool) (t : TritonRoute) (globals_path : String)
        (p q : String × List drUpdate),
        (sendDesignUpdates send t globals_path).files[i]? = some p →
        (sendDesignUpdates send t globals_path).files[j]? = some q → i ≠ j → p.1 ≠ q.1 := by
  have hinj : ∀ (v : String) (a b : Nat), a ≠ b → updatesPath v a ≠ updatesPath v b := by
    intro v a b hab heq
    apply hab
    apply toString_nat_injective
    unfold updatesPath at heq
    have hdata := congrArg String.data heq
    simp only [String.data_append] at hdata
    have h1 := List.append_cancel_right hdata
    have h2 := List.append_cancel_left h1
    exact String.ext h2
  refine ⟨hinj shared_volume i j, ?_⟩
  intro send t g p q hp hq hij
  have hfiles : (sendDesignUpdates send t g).files = [] ∨
      (sendDesignUpdates send t g).files =
        (List.range t.design.updates.length).map
          (fun k => (updatesPath t.shared_volume k, t.design.updates.getD k [])) := by
    unfold sendDesignUpdates
    by_cases hd : t.distributed = true
    · by_cases hu : t.design.hasUpdates = true
      · right
        simp only [hd, hu, Bool.not_true, Bool.false_eq_true, if_false]
        cases send (updatesJob t g) with
        | none => rfl
        | some ok => cases ok <;> rfl
      · left
        simp [hd, hu]
    · left
      simp [hd]
  rcases hfiles with h | h
  · rw [h] at hp
    simp at hp
  · rw [h] at hp hq
    simp only [List.getElem?_map, Option.map_eq_some'] at hp hq
    obtain ⟨a, ha, rfl⟩ := hp
    obtain ⟨b, hb, rfl⟩ := hq
    have hai : a = i := by
      rw [List.getElem?_range] at ha
      · exact (Option.some.inj ha).symm
      · rcases Nat.lt_or_ge i t.design.updates.length with hlt | hge
        · exact hlt
        · rw [List.getElem?_eq_none (by simpa using hge)] at ha; cases ha
    have hbj : b = j := by
      rw [List.getElem?_range] at hb
      · exact (Option.some.inj hb).symm
      · rcases Nat.lt_or_ge j t.design.updates.length with hlt | hge
        · exact hlt
        · rw [List.getElem?_eq_none (by simpa using hge)] at hb; cases hb
    subst hai hbj
    exact hinj _ _ _ hij

/-- C23 at concrete inputs: the two files written for the two pending groups
of `router0` have different paths. -/
theorem updatesPath_injective_witness :
    (0 : Nat) ≠ 1 ∧ updatesPath "/vol/" 0 ≠ updatesPath "/vol/" 1 ∧
      (sendDesignUpdates (fun _ => some true) router0 "g").files[0]? =
        some ("/vol/updates_0.bin", batchA) ∧
      (sendDesignUpdates (fun _ => some true) router0 "g").files[1]? =
        some ("/vol/updates_1.bin", batchB) :=
  ⟨by decide, (updatesPath_injective "/vol/" 0 1).1 (by decide), by decide, by decide⟩

/-! ## Round trip of mutation batches through the shared volume -/

/-- An unsigned integer written is read back. -/
theorem readNat_writeNat (n : Nat) (rest : List Int) :
    readNat (writeNat n ++ rest) = some (n, rest) := by
  simp [readNat, writeNat]

/-- An integer written is read back. -/
theorem readInt_writeInt (x : Int) (rest : List Int) :
    readInt (writeInt x ++ rest) = some (x, rest) := by
  simp [readInt, writeInt]

/-- A point written is read back. -/
theorem readPoint_writePoint (p : frPoint) (rest : List Int) :
    readPoint (writePoint p ++ rest) = some (p, rest) := by
  simp [readPoint, writePoint, List.append_assoc, readInt_writeInt]

/-- A segment style written is read back. -/
theorem readStyle_writeStyle (st : frSegStyle) (rest : List Int) :
    readStyle (writeStyle st ++ rest) = some (st, rest) := by
  simp [readStyle, writeStyle, List.append_assoc, readNat_writeNat]

/-- A path segment written is read back. -/
theorem readPathSeg_writePathSeg (seg : frPathSeg) (rest : List Int) :
    readPathSeg (writePathSeg seg ++ rest) = some (seg, rest) := by
  simp [readPathSeg, writePathSeg, List.append_assoc, readPoint_writePoint, readInt_writeInt,
    readStyle_writeStyle]

/-- A patch wire written is read back. -/
theorem readPatchWire_writePatchWire (pw : frPatchWire) (rest : List Int) :
    readPatchWire (writePatchWire pw ++ rest) = some (pw, rest) := by
  simp [readPatchWire, writePatchWire, List.append_assoc, readPoint_writePoint,
    readInt_writeInt]

/-- A via written is read back. -/
theorem readVia_writeVia (v : frVia) (rest : List Int) :
    readVia (writeVia v ++ rest) = some (v, rest) := by
  simp [readVia, writeVia, List.append_assoc, readPoint_writePoint, readNat_writeNat]

/-- A marker written is read back. -/
theorem readMarker_writeMarker (m : frMarker) (rest : List Int) :
    readMarker (writeMarker m ++ rest) = some (m, rest) := by
  simp [readMarker, writeMarker, List.append_assoc, readPoint_writePoint, readInt_writeInt]

/-- An owner written is read back, null or not. -/
theorem readNet_writeNet (net : Option Nat) (rest : List Int) :
    readNet (writeNet net ++ rest) = some (net, rest) := by
  cases net with
  | none => simp [readNet, writeNet, readInt_writeInt]
  | some n => simp [readNet, writeNet, List.append_assoc, readInt_writeInt, readNat_writeNat]

/-- Every operation tag is read back from its stored value. -/
theorem updateType_ofCode_code (t : UpdateType) : UpdateType.ofCode t.code = some t := by
  cases t <;> rfl

/-- Every object-type tag is read back from its stored value. -/
theorem objectType_ofCode_code (t : frBlockObjectEnum) :
    frBlockObjectEnum.ofCode t.code = some t := by
  cases t <;> rfl

/-- A mutation written is read back, whatever its tag. -/
theorem readUpdate_writeUpdate (u : drUpdate) (rest : List Int) :
    readUpdate (writeUpdate u ++ rest) = some (u, rest) := by
  simp [readUpdate, writeUpdate, List.append_assoc, readInt_writeInt, readNet_writeNet,
    updateType_ofCode_code, objectType_ofCode_code, readPathSeg_writePathSeg,
    readPatchWire_writePatchWire, readVia_writeVia, readMarker_writeMarker]

/-- The mutations of a batch written one after the other are read back. -/
theorem readUpdates_writeUpdates (us : List drUpdate) (rest : List Int) :
    readUpdates us.length (writeUpdates us ++ rest) = some (us, rest) := by
  induction us with
  | nil => rfl
  | cons u us ih =>
    simp [readUpdates, writeUpdates, List.append_assoc, readUpdate_writeUpdate, ih]

/-- A batch written is read back. -/
theorem readBatch_writeBatch (batch : List drUpdate) (rest : List Int) :
    readBatch (writeBatch batch ++ rest) = some (batch, rest) := by
  simp [readBatch, writeBatch, List.append_assoc, readNat_writeNat, readUpdates_writeUpdates]

/-- C21.  For every mutation batch, every shared volume, file name, design
and previous content of the output vector: the batch that `deserializeUpdate`
reads from the file that `serializeUpdatesBatch` wrote is the original batch,
so mutation by mutation the tag, the owner, the index, the object-type tag
and the payload are those written; the other files of the volume are
untouched. -/
theorem deserializeUpdate_serializeUpdatesBatch (volume : String → Option (List Int))
    (batch : List drUpdate) (file_name : String) (design : frDesign)
    (updates : List drUpdate) :
    deserializeUpdate (serializeUpdatesBatch volume batch file_name) design file_name updates
        = some batch ∧
      (∀ (k : Nat) (u : drUpdate), batch[k]? = some u →
        ∃ v, (deserializeUpdate (serializeUpdatesBatch volume batch file_name) design
            file_name updates).bind (fun b => b[k]?) = some v ∧
          v.type = u.type ∧ v.net = u.net ∧ v.orderInOwner = u.orderInOwner ∧
          v.objTypeId = u.objTypeId ∧ v.pathSeg = u.pathSeg ∧ v.patchWire = u.patchWire ∧
          v.via = u.via ∧ v.marker = u.marker) ∧
      (∀ path, path ≠ file_name → serializeUpdatesBatch volume batch file_name path
        = volume path) := by
  have hval : deserializeUpdate (serializeUpdatesBatch volume batch file_name) design
      file_name updates = some batch := by
    have h := readBatch_writeBatch batch []
    rw [List.append_nil] at h
    simp [deserializeUpdate, serializeUpdatesBatch, h]
  refine ⟨hval, ?_, ?_⟩
  · intro k u hk
    rw [hval]
    exact ⟨u, hk, rfl, rfl, rfl, rfl, rfl, rfl, rfl, rfl⟩
  · intro path hp
    simp [serializeUpdatesBatch, hp]

/-- C21 at concrete inputs: the batch of worker A, written to
`/vol/updates_0.bin` on an empty volume and read back, is the batch of worker
A; its first mutation comes back with the tag `ADD_SHAPE`, the owner 0 and
the payload `P1`. -/
theorem deserializeUpdate_serializeUpdatesBatch_witness :
    batchA[0]? = some (mkUpdate .ADD_SHAPE 0 5 segP1) ∧
      deserializeUpdate (serializeUpdatesBatch (fun _ => none) batchA "/vol/updates_0.bin")
        design0 "/vol/updates_0.bin" [] = some batchA ∧
      ∃ v, (deserializeUpdate (serializeUpdatesBatch (fun _ => none) batchA
            "/vol/updates_0.bin") design0 "/vol/updates_0.bin" []).bind (fun b => b[0]?)
          = some v ∧
        v.type = .ADD_SHAPE ∧ v.net = some 0 ∧ v.pathSeg = segP1 := by
  have h := deserializeUpdate_serializeUpdatesBatch (fun _ => none) batchA
    "/vol/updates_0.bin" design0 []
  obtain ⟨v, hv, h1, h2, _, _, h5, _⟩ := h.2.1 0 (mkUpdate .ADD_SHAPE 0 5 segP1) rfl
  exact ⟨rfl, h.1, v, hv, h1, h2, h5⟩

end Drt
